import Mathlib

/-!
Verification of the tracking-and-event core of the orcaianew3 repository.

The development shallowly embeds the Python code in Lean 4:

* `gui/grilla_widget.py` — line-counter reset paths (`enable_cross_line`,
  `disable_cross_line`), the point-to-segment distance helper, and the
  movement gate of `actualizar_boxes`.
* `tracker_config.py` — `TRACKER_CONFIG` and `get_tracker_config`.
* `test/config_validator.py` — `ConfigValidator._validate_cameras` and its
  sub-validators.

The classes `AdvancedTracker` (module `core/advanced_tracker.py`) and
`CrossLineCounter` (module `core/cross_line_counter.py`) are referenced by
tests and callers in the repository but their source files are not part of
the available tree; they are modelled from the specification, as marked in
the corresponding doc comments.

Machine floats are modelled by exact rationals; Python dicts by association
lists; code that can raise by `Option`.
-/

/-! ## Rational axis-aligned boxes -/

/-- Axis-aligned bounding box `(x1, y1, x2, y2)`, coordinates as exact
rationals. -/
structure Box where
  x1 : ℚ
  y1 : ℚ
  x2 : ℚ
  y2 : ℚ
deriving DecidableEq, Repr

def Box.area (b : Box) : ℚ := (b.x2 - b.x1) * (b.y2 - b.y1)

def Box.cx (b : Box) : ℚ := (b.x1 + b.x2) / 2

def Box.cy (b : Box) : ℚ := (b.y1 + b.y2) / 2

/-- Intersection-over-union of two boxes (0 when the union is degenerate). -/
def Box.iou (a b : Box) : ℚ :=
  let iw := max 0 (min a.x2 b.x2 - max a.x1 b.x1)
  let ih := max 0 (min a.y2 b.y2 - max a.y1 b.y1)
  let inter := iw * ih
  let uni := a.area + b.area - inter
  if uni ≤ 0 then 0 else inter / uni

/-- Squared euclidean distance between two rational points. -/
def dist2 (p q : ℚ × ℚ) : ℚ :=
  (p.1 - q.1) * (p.1 - q.1) + (p.2 - q.2) * (p.2 - q.2)

def clampQ (x lo hi : ℚ) : ℚ := max lo (min hi x)

/-! ## AdvancedTracker

Modelled from the spec: the file `core/advanced_tracker.py` defining class
`AdvancedTracker` is not part of the available source tree (only its unit
test `test/test_advanced_tracker.py` and its callers are).  The model below
follows spec sections 4.1 (MotionModel), 4.3 (LifecycleManager), 4.4
(ReassignmentResolver) and 4.5 (TrackRegistry), with the numeric defaults of
`TRACKER_CONFIG` (`velocity_smoothing_factor = 0.7`,
`max_prediction_distance = 100`, `prediction_decay_factor = 0.95`).  The
external Association Engine (spec section 6) is modelled as greedy
same-class best-IOU matching with a strong-match threshold of 1/2, and —
since the engine owns tentative-track confirmation and the test's engine
stub confirms immediately — tracks enter the registry as Confirmed.  The
`size_history`/`position_history` fields and the derived moving flag do not
influence any verified property and are omitted from the track state. -/

/-- A raw detection `{bbox, conf, cls}` as consumed by
`AdvancedTracker.update`. -/
structure Det where
  bbox : Box
  conf : ℚ
  cls : Int
deriving DecidableEq, Repr

/-- Per-object track state (spec section 3): identity, last accepted
geometry, class, confidence, smoothed velocity, and the Lost-lifecycle
bookkeeping (`lost`, `missed_frames`, `ttl_remaining`). -/
structure Track where
  id : Nat
  bbox : Box
  cls : Int
  conf : ℚ
  vx : ℚ
  vy : ℚ
  lost : Bool
  missed_frames : Nat
  ttl_remaining : Nat
deriving DecidableEq, Repr

/-- Tracker tuning values (spec section 6, per-class tuning). -/
structure TrackerCfg where
  lost_ttl : Nat
  min_iou_update : ℚ
  velocity_smoothing_factor : ℚ
  max_prediction_distance : ℚ
  assoc_iou_min : ℚ
  prediction_decay_factor : ℚ
deriving DecidableEq, Repr

/-- `AdvancedTracker(lost_ttl=..., min_iou_update=...)` constructor
defaults; `min_iou_update` defaults to 0 (no positional gate) when not
supplied. -/
def mkTrackerCfg (lost_ttl : Nat) (min_iou_update : ℚ := 0) : TrackerCfg :=
  { lost_ttl := lost_ttl
    min_iou_update := min_iou_update
    velocity_smoothing_factor := 7/10
    max_prediction_distance := 100
    assoc_iou_min := 1/2
    prediction_decay_factor := 95/100 }

/-- Registry state: the live tracks and the next fresh identifier. -/
structure TrackerState where
  tracks : List Track
  next_id : Nat
deriving DecidableEq, Repr

def AdvancedTracker.initState : TrackerState := ⟨[], 0⟩

/-- Externally visible per-track snapshot entry (spec section 6,
visible-track output). -/
structure TrackOut where
  id : Nat
  bbox : Box
  cls : Int
  conf : ℚ
deriving DecidableEq, Repr

/-- MotionModel.predict (spec section 4.1): translate the last accepted bbox
by the current velocity, with the displacement capped at
`max_prediction_distance` (componentwise clamp). -/
def Track.predictBox (cfg : TrackerCfg) (t : Track) : Box :=
  let dx := clampQ t.vx (-cfg.max_prediction_distance) cfg.max_prediction_distance
  let dy := clampQ t.vy (-cfg.max_prediction_distance) cfg.max_prediction_distance
  ⟨t.bbox.x1 + dx, t.bbox.y1 + dy, t.bbox.x2 + dx, t.bbox.y2 + dy⟩

/-- Predicted centroid of a lost track, used by the resolver. -/
def Track.predCentroid (cfg : TrackerCfg) (t : Track) : ℚ × ℚ :=
  ((t.predictBox cfg).cx, (t.predictBox cfg).cy)

/-- Pick the candidate track with the greatest IOU against `d`; ties break
toward the lowest id (deterministic ordering, spec section 4.4). -/
def pickByIou (d : Det) (cands : List Track) : Option Track :=
  cands.foldl
    (fun acc t =>
      match acc with
      | none => some t
      | some t' =>
        if Box.iou t'.bbox d.bbox < Box.iou t.bbox d.bbox ∨
            (Box.iou t.bbox d.bbox = Box.iou t'.bbox d.bbox ∧ t.id < t'.id) then
          some t
        else some t')
    none

/-- Pick the candidate track nearest (squared distance) to `d`'s centroid;
ties break toward the lowest id. -/
def pickNearest (cfg : TrackerCfg) (d : Det) (cands : List Track) : Option Track :=
  cands.foldl
    (fun acc t =>
      match acc with
      | none => some t
      | some t' =>
        if dist2 (t.predCentroid cfg) (d.bbox.cx, d.bbox.cy) <
              dist2 (t'.predCentroid cfg) (d.bbox.cx, d.bbox.cy) ∨
            (dist2 (t.predCentroid cfg) (d.bbox.cx, d.bbox.cy) =
              dist2 (t'.predCentroid cfg) (d.bbox.cx, d.bbox.cy) ∧ t.id < t'.id) then
          some t
        else some t')
    none

/-- Association Engine model (spec section 6): each detection, in frame
order, continues the not-lost same-class track of strongest IOU overlap
(at least `assoc_iou_min`), one-to-one; detections with no strong match are
left unmatched. -/
def AdvancedTracker.associate (cfg : TrackerCfg) (tracks : List Track) (dets : List Det) :
    List (Nat × Det) × List Det :=
  dets.foldl
    (fun acc d =>
      let used := acc.1.map (·.1)
      let cands := tracks.filter fun t =>
        !t.lost && t.cls == d.cls && !used.contains t.id &&
          decide (cfg.assoc_iou_min ≤ Box.iou t.bbox d.bbox)
      match pickByIou d cands with
      | some t => (acc.1 ++ [(t.id, d)], acc.2)
      | none => (acc.1, acc.2 ++ [d]))
    ([], [])

/-- ReassignmentResolver (spec section 4.4): each unmatched detection, in
order, relinks to the nearest lost same-class track whose motion-predicted
centroid lies within `max_prediction_distance` (squared comparison),
greedily and one-to-one; ties break toward the lowest id. -/
def AdvancedTracker.resolve (cfg : TrackerCfg) (tracks : List Track) (dets : List Det) :
    List (Nat × Det) × List Det :=
  dets.foldl
    (fun acc d =>
      let used := acc.1.map (·.1)
      let cands := tracks.filter fun t =>
        t.lost && t.cls == d.cls && !used.contains t.id &&
          decide (dist2 (t.predCentroid cfg) (d.bbox.cx, d.bbox.cy) ≤
            cfg.max_prediction_distance * cfg.max_prediction_distance)
      match pickNearest cfg d cands with
      | some t => (acc.1 ++ [(t.id, d)], acc.2)
      | none => (acc.1, acc.2 ++ [d]))
    ([], [])

/-- Direct hit (spec sections 4.1, 4.2): smooth the velocity from the
measured centroid delta, adopt the measured bbox only when the IOU against
the last accepted bbox reaches `min_iou_update`, adopt the detector
confidence, and return to Confirmed. -/
def AdvancedTracker.applyHit (cfg : TrackerCfg) (t : Track) (d : Det) : Track :=
  let a := cfg.velocity_smoothing_factor
  { t with
    bbox := if cfg.min_iou_update ≤ Box.iou t.bbox d.bbox then d.bbox else t.bbox
    conf := d.conf
    vx := a * (d.bbox.cx - t.bbox.cx) + (1 - a) * t.vx
    vy := a * (d.bbox.cy - t.bbox.cy) + (1 - a) * t.vy
    lost := false
    missed_frames := 0
    ttl_remaining := cfg.lost_ttl }

/-- Relink of a lost track (spec section 4.4): the detection becomes the
track's new observation, the id is preserved, `missed_frames` resets and the
lifecycle returns to Confirmed. -/
def AdvancedTracker.applyRelink (cfg : TrackerCfg) (t : Track) (d : Det) : Track :=
  let a := cfg.velocity_smoothing_factor
  { t with
    bbox := d.bbox
    conf := d.conf
    vx := a * (d.bbox.cx - t.bbox.cx) + (1 - a) * t.vx
    vy := a * (d.bbox.cy - t.bbox.cy) + (1 - a) * t.vy
    lost := false
    missed_frames := 0
    ttl_remaining := cfg.lost_ttl }

/-- Miss (spec section 4.3): a Confirmed track becomes Lost with
`ttl_remaining` reset to the configured TTL; a Lost track counts its TTL
down and is Deleted (`none`) the moment `ttl_remaining` reaches 0.
Confidence decays geometrically on predicted frames. -/
def AdvancedTracker.applyMiss (cfg : TrackerCfg) (t : Track) : Option Track :=
  if t.lost then
    if t.ttl_remaining ≤ 1 then none
    else some { t with
      missed_frames := t.missed_frames + 1
      ttl_remaining := t.ttl_remaining - 1
      conf := cfg.prediction_decay_factor * t.conf }
  else
    if cfg.lost_ttl = 0 then none
    else some { t with
      lost := true
      missed_frames := t.missed_frames + 1
      ttl_remaining := cfg.lost_ttl
      conf := cfg.prediction_decay_factor * t.conf }

/-- One frame's association outcome: engine matches, resolver relinks,
still-unmatched detections. -/
def AdvancedTracker.hitAssignments (cfg : TrackerCfg) (s : TrackerState) (dets : List Det) :
    List (Nat × Det) × List (Nat × Det) × List Det :=
  let ar := AdvancedTracker.associate cfg s.tracks dets
  let rr := AdvancedTracker.resolve cfg s.tracks ar.2
  (ar.1, rr.1, rr.2)

def lookupDet : List (Nat × Det) → Nat → Option Det
  | [], _ => none
  | p :: ps, i => if p.1 = i then some p.2 else lookupDet ps i

/-- Ids of the tracks that receive a detection (directly or by relink) this
frame. -/
def AdvancedTracker.hitIds (cfg : TrackerCfg) (s : TrackerState) (dets : List Det) : List Nat :=
  let hs := AdvancedTracker.hitAssignments cfg s dets
  hs.1.map (·.1) ++ hs.2.1.map (·.1)

/-- Per-track frame transition, producing the updated track (or `none` when
Deleted) together with its visible snapshot entry; a missed track is
displayed at its motion-predicted bbox, which is not persisted. -/
def AdvancedTracker.stepTrack (cfg : TrackerCfg) (m r : List (Nat × Det)) (t : Track) :
    Option (Track × TrackOut) :=
  match lookupDet m t.id with
  | some d =>
    let t' := AdvancedTracker.applyHit cfg t d
    some (t', ⟨t'.id, t'.bbox, t'.cls, t'.conf⟩)
  | none =>
    match lookupDet r t.id with
    | some d =>
      let t' := AdvancedTracker.applyRelink cfg t d
      some (t', ⟨t'.id, t'.bbox, t'.cls, t'.conf⟩)
    | none =>
      (AdvancedTracker.applyMiss cfg t).map
        (fun t' => (t', ⟨t'.id, t'.predictBox cfg, t'.cls, t'.conf⟩))

/-- Fresh Confirmed tracks for detections nobody claimed (spec section 4.4:
"Detections with no qualifying lost track become brand-new tracks"), with
consecutive fresh ids starting at `n0`. -/
def AdvancedTracker.newTracks (cfg : TrackerCfg) (n0 : Nat) : List Det → List Track
  | [] => []
  | d :: ds =>
    ⟨n0, d.bbox, d.cls, d.conf, 0, 0, false, 0, cfg.lost_ttl⟩ ::
      AdvancedTracker.newTracks cfg (n0 + 1) ds

/-- `AdvancedTracker.update(detections)` (spec section 4.5): associate,
resolve, advance every track one frame, purge deleted tracks, create new
tracks, and return the visible snapshot. -/
def AdvancedTracker.update (cfg : TrackerCfg) (s : TrackerState) (dets : List Det) :
    TrackerState × List TrackOut :=
  let hs := AdvancedTracker.hitAssignments cfg s dets
  let pairs := s.tracks.filterMap (AdvancedTracker.stepTrack cfg hs.1 hs.2.1)
  let news := AdvancedTracker.newTracks cfg s.next_id hs.2.2
  (⟨pairs.map (·.1) ++ news, s.next_id + hs.2.2.length⟩,
   pairs.map (·.2) ++ news.map (fun t => ⟨t.id, t.bbox, t.cls, t.conf⟩))

/-- Run a sequence of frames, keeping only the state. -/
def AdvancedTracker.run (cfg : TrackerCfg) (s : TrackerState) (frames : List (List Det)) :
    TrackerState :=
  frames.foldl (fun st ds => (AdvancedTracker.update cfg st ds).1) s

def AdvancedTracker.liveIds (s : TrackerState) : List Nat := s.tracks.map (·.id)

/-- `neverHit cfg s frames i` holds when track id `i` receives no qualifying
detection (neither a direct association nor a relink) in any of the given
consecutive frames. -/
def AdvancedTracker.neverHit (cfg : TrackerCfg) (s : TrackerState)
    (frames : List (List Det)) (i : Nat) : Bool :=
  match frames with
  | [] => true
  | ds :: rest =>
    !(AdvancedTracker.hitIds cfg s ds).contains i &&
      AdvancedTracker.neverHit cfg (AdvancedTracker.update cfg s ds).1 rest i

/-! ## CrossLineCounter

Modelled from the spec: the file `core/cross_line_counter.py` defining class
`CrossLineCounter` is not part of the available source tree (only its caller
`gui/grilla_widget.py` is).  The model follows spec section 4.6: side of a
normalized-coordinate line by the sign of a 2-D cross product, per-track
previous-side memory, debounced side-transition events with directions
`Entrada`/`Salida` (the labels used by `grilla_widget.py`), per-direction
per-class counters, and `set_line` resetting counters and side memory (spec
section 6, line configuration).  Only the first snapshot of each track id is
processed per `update_boxes` call, so a track cannot be double-counted
within one frame.  Timestamps and Qt signal plumbing are not modelled. -/

/-- Counting direction labels, as displayed by `grilla_widget.py`. -/
inductive Direction where
  | entrada
  | salida
deriving DecidableEq, Repr

/-- Crossing event `{track_id, class, direction}` (spec section 3;
the timestamp is not modelled). -/
structure CrossEvent where
  track_id : Nat
  cls : Int
  direction : Direction
deriving DecidableEq, Repr

/-- Tracked-box snapshot consumed by `update_boxes` (pixel coordinates). -/
structure CBoxIn where
  id : Nat
  bbox : Box
  cls : Int
deriving DecidableEq, Repr

/-- CrossLineCounter state: normalized-coordinate line endpoints, per-track
previous side (association list, sides are `1`/`-1`), per-direction
per-class counters, and the `active` flag toggled by the widget. -/
structure CrossLineCounter where
  line : (ℚ × ℚ) × (ℚ × ℚ)
  prev_sides : List (Nat × Int)
  counts : Direction → Int → Nat
  active : Bool

def lookupSide : List (Nat × Int) → Nat → Option Int
  | [], _ => none
  | p :: m, i => if p.1 = i then some p.2 else lookupSide m i

def setSide (m : List (Nat × Int)) (i : Nat) (v : Int) : List (Nat × Int) :=
  match m with
  | [] => [(i, v)]
  | p :: rest => if p.1 = i then (i, v) :: rest else p :: setSide rest i v

/-- Side of the line for a point: sign of the cross product of the line's
direction vector with the vector from the first endpoint to the point
(spec section 4.6); `0` is OnLine. -/
def lineSide (line : (ℚ × ℚ) × (ℚ × ℚ)) (p : ℚ × ℚ) : Int :=
  let c := (line.2.1 - line.1.1) * (p.2 - line.1.2) -
    (line.2.2 - line.1.2) * (p.1 - line.1.1)
  if 0 < c then 1 else if c < 0 then -1 else 0

/-- The side a track is recorded on right after an event of the given
direction: `entrada` ends on side `1`, `salida` on side `-1`. -/
def Direction.newSide : Direction → Int
  | .entrada => 1
  | .salida => -1

/-- Bump one `(direction, class)` counter. -/
def bumpCount (f : Direction → Int → Nat) (d : Direction) (c : Int) : Direction → Int → Nat :=
  fun d' c' => if d' = d ∧ c' = c then f d' c' + 1 else f d' c'

/-- Process one tracked box: skip ids already handled this call; compute the
side of the normalized centroid; OnLine is no change; a first definite side
is recorded; a definite side differing from the recorded one emits one
event, bumps one counter and records the new side. -/
def CrossLineCounter.processBox (st : CrossLineCounter) (handled : List Nat)
    (sz : ℚ × ℚ) (b : CBoxIn) : CrossLineCounter × List Nat × Option CrossEvent :=
  if handled.contains b.id then (st, handled, none)
  else
    let handled' := b.id :: handled
    let sd := lineSide st.line (b.bbox.cx / sz.1, b.bbox.cy / sz.2)
    if sd = 0 then (st, handled', none)
    else
      match lookupSide st.prev_sides b.id with
      | none => ({ st with prev_sides := setSide st.prev_sides b.id sd }, handled', none)
      | some p0 =>
        if p0 = sd then (st, handled', none)
        else
          let d := if sd = 1 then Direction.entrada else Direction.salida
          ({ st with
              prev_sides := setSide st.prev_sides b.id sd
              counts := bumpCount st.counts d b.cls },
            handled', some ⟨b.id, b.cls, d⟩)

/-- Fold step of `update_boxes`: process one box against the running state,
handled-id set and event list. -/
def CrossLineCounter.stepBox (sz : ℚ × ℚ)
    (acc : CrossLineCounter × List Nat × List CrossEvent) (b : CBoxIn) :
    CrossLineCounter × List Nat × List CrossEvent :=
  let pr := CrossLineCounter.processBox acc.1 acc.2.1 sz b
  (pr.1, pr.2.1, acc.2.2 ++ pr.2.2.toList)

/-- One `update_boxes(tracks, frame_size)` cycle: fold `processBox` over the
boxes (no-op while inactive), returning the new state and the emitted
events. -/
def CrossLineCounter.update_boxes (st : CrossLineCounter) (boxes : List CBoxIn)
    (sz : ℚ × ℚ) : CrossLineCounter × List CrossEvent :=
  if st.active then
    let r := boxes.foldl (CrossLineCounter.stepBox sz) (st, [], [])
    (r.1, r.2.2)
  else (st, [])

/-- `set_line` (modelled from the spec: "setting a new line resets counters
and side memory"). -/
def CrossLineCounter.set_line (st : CrossLineCounter) (l : (ℚ × ℚ) × (ℚ × ℚ)) :
    CrossLineCounter :=
  { st with line := l, prev_sides := [], counts := fun _ _ => 0 }

/-! ## GrillaWidget line-counter slice

From `gui/grilla_widget.py`: the fields touched by `enable_cross_line` and
`disable_cross_line` (lines 128-142). -/

/-- The slice of `GrillaWidget` state owned by the counting feature. -/
structure GrillaWidgetCL where
  cross_line_enabled : Bool
  cross_counts : Direction → Int → Nat
  cross_counter : CrossLineCounter

/-- `GrillaWidget.enable_cross_line`: enable the flag, activate the counter,
clear the widget's count display, the counter's side memory and its
counters. -/
def GrillaWidgetCL.enable_cross_line (w : GrillaWidgetCL) : GrillaWidgetCL :=
  { cross_line_enabled := true
    cross_counts := fun _ _ => 0
    cross_counter := { w.cross_counter with
      active := true
      prev_sides := []
      counts := fun _ _ => 0 } }

/-- `GrillaWidget.disable_cross_line`: same resets with both flags off. -/
def GrillaWidgetCL.disable_cross_line (w : GrillaWidgetCL) : GrillaWidgetCL :=
  { cross_line_enabled := false
    cross_counts := fun _ _ => 0
    cross_counter := { w.cross_counter with
      active := false
      prev_sides := []
      counts := fun _ _ => 0 } }

/-! ## Python values

A small model of the Python/JSON values handled by `tracker_config.py` and
`test/config_validator.py`: `None`, booleans, integers, floats (as exact
rationals), strings, lists/tuples, and dicts as association lists.  Dicts
produced by `json.load` carry no duplicate keys, and all modelled code keeps
them that way. -/

inductive PV where
  | null
  | b (v : Bool)
  | i (n : Int)
  | q (x : ℚ)
  | s (v : String)
  | arr (l : List PV)
  | dict (l : List (String × PV))
deriving Repr

/-- Python truthiness. -/
def pyTruthy : PV → Bool
  | .null => false
  | .b v => v
  | .i n => n != 0
  | .q x => x != 0
  | .s v => v != ""
  | .arr l => !l.isEmpty
  | .dict l => !l.isEmpty

/-- Dict lookup (first binding; dicts are duplicate-free). -/
def dlookup : List (String × PV) → String → Option PV
  | [], _ => none
  | p :: l, k => if p.1 = k then some p.2 else dlookup l k

def dcontains (l : List (String × PV)) (k : String) : Bool :=
  (dlookup l k).isSome

/-- Dict assignment `d[k] = v`: replace in place, else append (Python dicts
keep the insertion position of an overwritten key). -/
def dset : List (String × PV) → String → PV → List (String × PV)
  | [], k, v => [(k, v)]
  | p :: l, k, v => if p.1 = k then (k, v) :: l else p :: dset l k v

/-- `d.setdefault(k, v)`. -/
def dsetdefault (l : List (String × PV)) (k : String) (v : PV) : List (String × PV) :=
  if dcontains l k then l else l ++ [(k, v)]

/-- `d.get(k)` — `None` when absent. -/
def pyGet (l : List (String × PV)) (k : String) : PV :=
  (dlookup l k).getD .null

/-- `d.get(k, dflt)`. -/
def pyGetD (l : List (String × PV)) (k : String) (dflt : PV) : PV :=
  (dlookup l k).getD dflt

/-! ## tracker_config.py -/

/-- The `object_configs` table of `TRACKER_CONFIG` (`tracker_config.py`
lines 38-63). -/
def objectConfigs : List (String × PV) := [
  ("Personas", .dict [
    ("max_size_change_ratio", .q (3/2)),
    ("movement_threshold", .q 3),
    ("lost_ttl", .i 10)]),
  ("Barcos", .dict [
    ("max_size_change_ratio", .q 3),
    ("movement_threshold", .q 10),
    ("velocity_smoothing_factor", .q (9/10)),
    ("lost_ttl", .i 15)]),
  ("Autos", .dict [
    ("max_size_change_ratio", .q 2),
    ("movement_threshold", .q 8),
    ("max_prediction_distance", .i 150),
    ("lost_ttl", .i 7)]),
  ("Embarcaciones", .dict [
    ("max_size_change_ratio", .q (5/2)),
    ("movement_threshold", .q 12),
    ("velocity_smoothing_factor", .q (85/100)),
    ("lost_ttl", .i 12),
    ("size_outlier_threshold", .q (5/2))])]

/-- The global configuration dictionary `TRACKER_CONFIG` of
`tracker_config.py` (lines 7-87), embedded entry for entry. -/
def TRACKER_CONFIG : List (String × PV) := [
  ("max_age", .i 30),
  ("n_init", .i 3),
  ("nms_max_overlap", .q 1),
  ("enable_size_control", .b true),
  ("max_size_change_ratio", .q 2),
  ("size_history_length", .i 10),
  ("size_outlier_threshold", .q 3),
  ("enable_velocity_prediction", .b true),
  ("max_prediction_distance", .i 100),
  ("velocity_smoothing_factor", .q (7/10)),
  ("movement_history_steps", .i 7),
  ("movement_threshold", .q 5),
  ("movement_smoothing_frames", .i 5),
  ("min_detection_confidence", .q (1/10)),
  ("prediction_decay_factor", .q (95/100)),
  ("conf_threshold", .q (1/4)),
  ("lost_ttl", .i 5),
  ("object_configs", .dict objectConfigs),
  ("visualization", .dict [
    ("show_trajectory", .b true),
    ("trajectory_length", .i 10),
    ("show_confidence_decay", .b true),
    ("show_size_correction", .b true),
    ("show_prediction", .b true),
    ("box_colors", .dict [
      ("normal", .arr [.i 0, .i 150, .i 255]),
      ("predicted", .arr [.i 255, .i 255, .i 0]),
      ("low_confidence", .arr [.i 255, .i 165, .i 0]),
      ("size_corrected", .arr [.i 0, .i 255, .i 0])])]),
  ("performance", .dict [
    ("enable_gpu", .b true),
    ("batch_size", .i 32),
    ("max_tracks", .i 100),
    ("cleanup_interval", .i 100)])]

/-- Apply `for key, value in items: if key in config: config[key] = value`. -/
def applyOverrides (config : List (String × PV)) (items : List (String × PV)) :
    List (String × PV) :=
  items.foldl (fun cfg kv => if dcontains cfg kv.1 then dset cfg kv.1 kv.2 else cfg) config

/-- `get_tracker_config(model_key=None, override_config=None)`
(`tracker_config.py` lines 89-116), in store-passing form: the first
component is the global `TRACKER_CONFIG` after the call (the function only
writes top-level keys of its shallow copy), the second is the returned
configuration. -/
def get_tracker_config (model_key : Option String := none)
    (override_config : List (String × PV) := []) :
    List (String × PV) × List (String × PV) :=
  let config := TRACKER_CONFIG
  let config :=
    match model_key with
    | none => config
    | some mk =>
      if mk = "" then config
      else
        match dlookup TRACKER_CONFIG "object_configs" with
        | some (.dict ocs) =>
          match dlookup ocs mk with
          | some (.dict model_config) => applyOverrides config model_config
          | _ => config
        | _ => config
  let config := if override_config.isEmpty then config else applyOverrides config override_config
  (TRACKER_CONFIG, config)

/-- The resolution rule as worded by the spec ("class-keyed override
lookup"): the override value when the key is both overridden and a base
key, otherwise the model-specific value when the model entry carries the
key, otherwise the base value; keys outside `TRACKER_CONFIG` resolve to
nothing.  Compared against `get_tracker_config` in the corresponding
theorem. -/
def modelEntry : Option String → Option (List (String × PV))
  | none => none
  | some mk =>
    match dlookup TRACKER_CONFIG "object_configs" with
    | some (.dict ocs) =>
      match dlookup ocs mk with
      | some (.dict mc) => some mc
      | _ => none
    | _ => none

def get_tracker_config_spec (model_key : Option String)
    (override_config : List (String × PV)) (k : String) : Option PV :=
  if dcontains TRACKER_CONFIG k then
    if dcontains override_config k then dlookup override_config k
    else
      match modelEntry model_key with
      | some mc => if dcontains mc k then dlookup mc k else dlookup TRACKER_CONFIG k
      | none => dlookup TRACKER_CONFIG k
  else none

/-! ## GrillaWidget._point_to_segment_distance

From `gui/grilla_widget.py` lines 188-200.  The final euclidean square root
is kept abstract (parameter `rt`): every verified property concerns the
branch structure and the divisor, not the root's value. -/

def point_to_segment_distance (rt : ℚ → ℚ) (p a b : ℚ × ℚ) : ℚ :=
  let dx := b.1 - a.1
  let dy := b.2 - a.2
  if dx = 0 ∧ dy = 0 then |p.1 - a.1| + |p.2 - a.2|
  else
    let t0 := ((p.1 - a.1) * dx + (p.2 - a.2) * dy) / (dx * dx + dy * dy)
    let t := max 0 (min 1 t0)
    let projx := a.1 + t * dx
    let projy := a.2 + t * dy
    rt ((p.1 - projx) * (p.1 - projx) + (p.2 - projy) * (p.2 - projy))

/-! ## Python string and number conversions

Kernel-computable models of `str()`, `int()` and `float()` as used by
`test/config_validator.py`.  `int()`/`float()` of strings cover the plain
sign-and-digits decimal forms; exponent, underscore and whitespace variants
are not modelled.  `str()` of nested containers is rendered without the
quoting Python's `repr` adds to strings; no verified property inspects such
a rendering. -/

def charDigit? (c : Char) : Option Nat :=
  if '0' ≤ c ∧ c ≤ '9' then some (c.toNat - 48) else none

def digitsVal : List Char → Nat → Option Nat
  | [], acc => some acc
  | c :: cs, acc =>
    match charDigit? c with
    | some d => digitsVal cs (acc * 10 + d)
    | none => none

def parseNatDigits : List Char → Option Nat
  | [] => none
  | cs => digitsVal cs 0

def parsePyIntChars : List Char → Option Int
  | [] => none
  | '-' :: cs => (parseNatDigits cs).map (fun n => -(n : Int))
  | '+' :: cs => (parseNatDigits cs).map (fun n => (n : Int))
  | cs => (parseNatDigits cs).map (fun n => (n : Int))

/-- Python `int(s)` on a plain decimal string. -/
def parsePyInt (s : String) : Option Int := parsePyIntChars s.toList

/-- Digits with an optional value: the empty digit string contributes 0 with
`false`, as in the integer or fractional part of `"1."` / `".5"`. -/
def digitsValD : List Char → Option (Nat × Nat)
  | [] => some (0, 0)
  | c :: cs =>
    match charDigit? c, digitsValD cs with
    | some d, some r => some (d * 10 ^ cs.length + r.1, r.2 + 1)
    | _, _ => none

def parsePyFloatChars (cs : List Char) : Option ℚ :=
  let core := fun (body : List Char) (sgn : ℚ) =>
    match body.splitOn '.' with
    | [a] => (parseNatDigits a).map (fun n => sgn * n)
    | [a, b] =>
      if a.isEmpty ∧ b.isEmpty then none
      else
        match digitsValD a, digitsValD b with
        | some ia, some fb => some (sgn * ((ia.1 : ℚ) + (fb.1 : ℚ) / (10 ^ fb.2)))
        | _, _ => none
    | _ => none
  match cs with
  | [] => none
  | '-' :: rest => core rest (-1)
  | '+' :: rest => core rest 1
  | rest => core rest 1

/-- Python `float(s)` on a plain decimal string. -/
def parsePyFloat (s : String) : Option ℚ := parsePyFloatChars s.toList

/-- Python `float(x)` on a JSON value; non-numeric values raise (`none`). -/
def pyFloat : PV → Option ℚ
  | .i n => some n
  | .q x => some x
  | .b v => some (if v then 1 else 0)
  | .s v => parsePyFloat v
  | _ => none

/-- Truncation toward zero, as Python `int()` on a float. -/
def ratTrunc (x : ℚ) : Int := Int.tdiv x.num x.den

/-- Python `int(x)` on a JSON value; non-numeric values raise (`none`). -/
def pyInt : PV → Option Int
  | .i n => some n
  | .q x => some (ratTrunc x)
  | .b v => some (if v then 1 else 0)
  | .s v => parsePyInt v
  | _ => none

mutual

/-- Python `str(x)`. -/
def pyStr : PV → String
  | .null => "None"
  | .b true => "True"
  | .b false => "False"
  | .i n => toString n
  | .q x => toString x
  | .s v => v
  | .arr l => "[" ++ pyStrList l ++ "]"
  | .dict l => "\x7b" ++ pyStrDict l ++ "\x7d"

def pyStrList : List PV → String
  | [] => ""
  | [x] => pyStr x
  | x :: xs => pyStr x ++ ", " ++ pyStrList xs

def pyStrDict : List (String × PV) → String
  | [] => ""
  | [p] => p.1 ++ ": " ++ pyStr p.2
  | p :: ps => p.1 ++ ": " ++ pyStr p.2 ++ ", " ++ pyStrDict ps

end

/-! ## ConfigValidator (test/config_validator.py)

Embedding of `ConfigValidator._validate_cameras` (lines 97-154) and the
sub-validators it calls.  Exceptions escaping the method (a non-numeric
`confianza`/`umbral`/`intervalo`/`imgsz`/`lost_ttl`, or a `camaras` value
that cannot be iterated as a list of entries) are modelled as `none`. -/

/-- Python `"row_col"` cell-key parsing:
`row, col = map(int, str(key).split('_'))`, `None` when it raises. -/
def parseCellKey (k : String) : Option (Int × Int) :=
  match k.toList.splitOn '_' with
  | [a, b] =>
    match parsePyIntChars a, parsePyIntChars b with
    | some r, some c => some (r, c)
    | _, _ => none
  | _ => none

def cellKeyStr (rc : Int × Int) : String :=
  toString rc.1 ++ "_" ++ toString rc.2

/-- Order-preserving de-duplication of the valid `[row, col]` cells
(the `seen` set of `_validate_discarded_cells`). -/
def dedupCells : List (Int × Int) → List (Int × Int) → List (Int × Int)
  | seen, [] => seen
  | seen, c :: cs => if seen.contains c then dedupCells seen cs else dedupCells (seen ++ [c]) cs

/-- `ConfigValidator._validate_discarded_cells` (lines 156-196): keep only
two-element lists of in-grid integer coordinates, de-duplicated in order. -/
def validate_discarded_cells (cam : List (String × PV)) : List (String × PV) :=
  match pyGetD cam "discarded_grid_cells" (.arr []) with
  | .arr cells =>
    let valid := cells.foldl
      (fun acc cell =>
        match cell with
        | .arr [a, b] =>
          match pyInt a, pyInt b with
          | some row, some col =>
            if 0 ≤ row ∧ row < 18 ∧ 0 ≤ col ∧ col < 22 then acc ++ [(row, col)] else acc
          | _, _ => acc
        | _ => acc)
      []
    let uniq := dedupCells [] valid
    dset cam "discarded_grid_cells" (.arr (uniq.map (fun rc => .arr [.i rc.1, .i rc.2])))
  | _ => dset cam "discarded_grid_cells" (.arr [])

/-- `ConfigValidator._validate_cell_presets` (lines 198-215). -/
def validate_cell_presets (cam : List (String × PV)) : List (String × PV) :=
  match pyGetD cam "cell_presets" (.dict []) with
  | .dict presets =>
    let valid := presets.foldl
      (fun acc kv =>
        match parseCellKey kv.1 with
        | some rc => dset acc (cellKeyStr rc) (.s (pyStr kv.2))
        | none => acc)
      []
    dset cam "cell_presets" (.dict valid)
  | _ => dset cam "cell_presets" (.dict [])

/-- The `ip -> tipo` map built at the top of `_validate_cameras`
(lines 101-105); keys are the raw `ip` values, lookups are by the string
`ip` of a PTZ mapping, last binding wins (dict-overwrite semantics). -/
def buildIpTipoMap (cams : List PV) : List (PV × PV) :=
  cams.foldl
    (fun acc cam =>
      match cam with
      | .dict l => if pyTruthy (pyGet l "ip") then acc ++ [(pyGet l "ip", pyGet l "tipo")] else acc
      | _ => acc)
    []

def ipTipoLookup (m : List (PV × PV)) (ip : String) : Option PV :=
  (m.reverse.find? (fun kv =>
    match kv.1 with
    | .s v => v == ip
    | _ => false)).map (·.2)

/-- `ConfigValidator._validate_cell_ptz_map` (lines 217-244): keep only
well-keyed dict entries whose `ip` resolves to a camera of `tipo == "ptz"`. -/
def validate_cell_ptz_map (cam : List (String × PV)) (m : List (PV × PV)) :
    List (String × PV) :=
  match pyGetD cam "cell_ptz_map" (.dict []) with
  | .dict mp =>
    let valid := mp.foldl
      (fun acc kv =>
        match parseCellKey kv.1 with
        | some rc =>
          match kv.2 with
          | .dict vl =>
            let ip := pyStr (pyGetD vl "ip" (.s ""))
            let preset := pyStr (pyGetD vl "preset" (.s ""))
            match ipTipoLookup m ip with
            | some (.s t) =>
              if t = "ptz" then
                dset acc (cellKeyStr rc) (.dict [("ip", .s ip), ("preset", .s preset)])
              else acc
            | _ => acc
          | _ => acc
        | none => acc)
      []
    dset cam "cell_ptz_map" (.dict valid)
  | _ => dset cam "cell_ptz_map" (.dict [])

def clampQ01 (x : ℚ) : ℚ := max 0 (min 1 x)

/-- The `cam.setdefault(...)` block of `_validate_cameras` (lines 122-137). -/
def applyCamDefaults (l : List (String × PV)) : List (String × PV) :=
  let l := dsetdefault l "usuario" (.s "admin")
  let l := dsetdefault l "contrasena" (.s "")
  let l := dsetdefault l "tipo" (.s "fija")
  let l := dsetdefault l "confianza" (.q (Rat.divInt 1 2))
  let l := dsetdefault l "intervalo" (.i 80)
  let l := dsetdefault l "imgsz" (.i 640)
  let l := dsetdefault l "device" (.s "cpu")
  let l := dsetdefault l "resolucion" (.s "main")
  let l := dsetdefault l "umbral" (.q (Rat.divInt 1 2))
  let l := dsetdefault l "guardar_capturas" (.b false)
  let l := dsetdefault l "modo_centinela" (.b false)
  let l := dsetdefault l "lost_ttl" (.i 5)
  let l := dsetdefault l "modelos" (.arr [.s "Personas"])
  let l := dsetdefault l "cell_presets" (.dict [])
  dsetdefault l "cell_ptz_map" (.dict [])

/-- `cam[key] = max(0.0, min(1.0, float(cam.get(key, 0.5))))` — `none` when
`float()` raises. -/
def setQClampedField (l : List (String × PV)) (key : String) :
    Option (List (String × PV)) :=
  match pyFloat (pyGetD l key (.q (Rat.divInt 1 2))) with
  | none => none
  | some x => some (dset l key (.q (clampQ01 x)))

/-- `cam[key] = max(1, int(cam.get(key, dflt)))` — `none` when `int()`
raises. -/
def setIntFloorField (l : List (String × PV)) (key : String) (dflt : PV) :
    Option (List (String × PV)) :=
  match pyInt (pyGetD l key dflt) with
  | none => none
  | some n => some (dset l key (.i (max 1 n)))

/-- `cam[key] = int(cam.get(key, dflt))` — `none` when `int()` raises. -/
def setIntRawField (l : List (String × PV)) (key : String) (dflt : PV) :
    Option (List (String × PV)) :=
  match pyInt (pyGetD l key dflt) with
  | none => none
  | some n => some (dset l key (.i n))

/-- The numeric-validation block of `_validate_cameras` (lines 139-144):
clamp `confianza`/`umbral` into `[0, 1]`, force `intervalo`/`lost_ttl` to at
least 1, coerce `imgsz` to an integer; a failed conversion raises
(`none`). -/
def validateNumericFields (l : List (String × PV)) : Option (List (String × PV)) :=
  Option.bind (setQClampedField l "confianza") fun l =>
  Option.bind (setQClampedField l "umbral") fun l =>
  Option.bind (setIntFloorField l "intervalo" (.i 80)) fun l =>
  Option.bind (setIntRawField l "imgsz" (.i 640)) fun l =>
  setIntFloorField l "lost_ttl" (.i 5)

/-- The `modelos` list repair of `_validate_cameras` (lines 146-148). -/
def fixModelos (l : List (String × PV)) : List (String × PV) :=
  match pyGet l "modelos" with
  | .arr _ => l
  | _ => dset l "modelos" (.arr [pyGetD l "modelo" (.s "Personas")])

/-- Wrap the numeric-validation outcome back into the loop protocol. -/
def finishCam (r : Option (List (String × PV))) :
    Option (Option (List (String × PV))) :=
  match r with
  | none => none
  | some ln => some (some (fixModelos ln))

/-- One iteration of the camera loop of `_validate_cameras` (lines 107-151):
`some none` = entry skipped, `some (some cam')` = entry kept as `cam'`,
`none` = an exception escapes. -/
def validateOneCam (m : List (PV × PV)) (cam : PV) : Option (Option (List (String × PV))) :=
  match cam with
  | .dict l0 =>
    if !pyTruthy (pyGet l0 "ip") then some none
    else
      finishCam (validateNumericFields (applyCamDefaults
        (validate_cell_ptz_map (validate_cell_presets (validate_discarded_cells l0)) m)))
  | _ => some none

/-- The camera loop: collect kept entries in order, propagating a raise. -/
def validateCamsLoop (m : List (PV × PV)) : List PV → Option (List PV)
  | [] => some []
  | cam :: rest =>
    match validateOneCam m cam with
    | none => none
    | some none => validateCamsLoop m rest
    | some (some l) => (validateCamsLoop m rest).map (fun vs => .dict l :: vs)

/-- `ConfigValidator._validate_cameras(config_data)` (lines 97-154). -/
def validate_cameras (config_data : PV) : Option PV :=
  match config_data with
  | .dict cd =>
    match dlookup cd "camaras" with
    | some (.arr cams) =>
      let m := buildIpTipoMap cams
      match validateCamsLoop m cams with
      | none => none
      | some valid => some (.dict (dset cd "camaras" (.arr valid)))
    | _ => none
  | _ => none

/-- The repaired-camera postcondition stated by the claim: a dictionary with
truthy `ip`, `confianza`/`umbral` clamped into `[0, 1]`, integral
`intervalo`/`lost_ttl` of at least 1, and a list-valued `modelos`. -/
def ValidCam (cam : PV) : Prop :=
  ∃ l, cam = .dict l ∧
    pyTruthy (pyGet l "ip") = true ∧
    (∃ x : ℚ, pyGet l "confianza" = .q x ∧ 0 ≤ x ∧ x ≤ 1) ∧
    (∃ x : ℚ, pyGet l "umbral" = .q x ∧ 0 ≤ x ∧ x ≤ 1) ∧
    (∃ n : Int, pyGet l "intervalo" = .i n ∧ 1 ≤ n) ∧
    (∃ n : Int, pyGet l "lost_ttl" = .i n ∧ 1 ≤ n) ∧
    (∃ xs, pyGet l "modelos" = .arr xs)

/-! ## GrillaWidget.actualizar_boxes — movement gate

From `gui/grilla_widget.py` lines 359-408: the per-class previous-centroid
memory (`objetos_previos`, threshold `umbral_movimiento`), the universally
quantified movement test, and the 10-entry history truncation.  Only the
alert-forwarding gate is embedded; cell filtering and logging are
downstream of the forwarded list and out of scope here. -/

/-- One tracked box dict as received by `actualizar_boxes`: integer bbox,
optional track id, class and confidence. -/
structure DetBox where
  x1 : Int
  y1 : Int
  x2 : Int
  y2 : Int
  cls : Int
  tid : Option Nat
  conf : ℚ
deriving DecidableEq, Repr

/-- The tuple `(x1, y1, x2, y2, cls, cx, cy, track_id, conf)` appended to
`nuevas_detecciones_para_alertas`. -/
structure FwdDet where
  x1 : Int
  y1 : Int
  x2 : Int
  y2 : Int
  cls : Int
  cx : Int
  cy : Int
  tid : Option Nat
  conf : ℚ
deriving DecidableEq, Repr

/-- Per-class previous-centroid history (`self.objetos_previos`). -/
def PrevMap := List (Int × List (Int × Int))

def lookupPrev : PrevMap → Int → List (Int × Int)
  | [], _ => []
  | p :: m, cls => if p.1 = cls then p.2 else lookupPrev m cls

def setPrev (m : PrevMap) (cls : Int) (v : List (Int × Int)) : PrevMap :=
  match m with
  | [] => [(cls, v)]
  | p :: rest => if p.1 = cls then (cls, v) :: rest else p :: setPrev rest cls v

/-- `current_cls_positions[-10:]`. -/
def lastTen (l : List (Int × Int)) : List (Int × Int) :=
  l.drop (l.length - 10)

/-- `se_ha_movido`: the centroid differs by more than `umbral_movimiento` in
x or in y from every stored previous centroid of the class (`all` over the
stored history — vacuously true when the history is empty). -/
def seHaMovido (umbral : Int) (hist : List (Int × Int)) (cx cy : Int) : Bool :=
  hist.all fun p => decide (umbral < |cx - p.1| ∨ umbral < |cy - p.2|)

/-- One iteration of the detection loop of `actualizar_boxes`: centroid via
`int((x1 + x2) / 2)` (truncation toward zero), the movement gate, and the
write-back `objetos_previos[cls] = current_cls_positions[-10:]`. -/
def procesarBox (umbral : Int) (prev : PrevMap) (b : DetBox) : PrevMap × Option FwdDet :=
  let cx := Int.tdiv (b.x1 + b.x2) 2
  let cy := Int.tdiv (b.y1 + b.y2) 2
  let hist := lookupPrev prev b.cls
  if seHaMovido umbral hist cx cy then
    (setPrev prev b.cls (lastTen (hist ++ [(cx, cy)])),
      some ⟨b.x1, b.y1, b.x2, b.y2, b.cls, cx, cy, b.tid, b.conf⟩)
  else
    (setPrev prev b.cls (lastTen hist), none)

/-- The whole per-frame loop, returning the updated per-class memory and
`nuevas_detecciones_para_alertas` in order. -/
def actualizarBoxesGate (umbral : Int) (prev : PrevMap) : List DetBox → PrevMap × List FwdDet
  | [] => (prev, [])
  | b :: bs =>
    let pr := procesarBox umbral prev b
    let r := actualizarBoxesGate umbral pr.1 bs
    (r.1, pr.2.toList ++ r.2)

/-! ## Concrete scenarios from test/test_advanced_tracker.py -/

/-- `AdvancedTrackerReassignTest.test_reassign_after_large_shift`: the four
update calls of the occlusion scenario (lines 59-69). -/
def reassignScenarioOut : List TrackOut :=
  let cfg := mkTrackerCfg 2
  let s1 := (AdvancedTracker.update cfg AdvancedTracker.initState
    [⟨⟨100, 100, 150, 150⟩, 1, 0⟩]).1
  let s2 := (AdvancedTracker.update cfg s1 [⟨⟨110, 100, 160, 150⟩, 1, 0⟩]).1
  let s3 := (AdvancedTracker.update cfg s2 []).1
  (AdvancedTracker.update cfg s3 [⟨⟨140, 100, 190, 150⟩, 1, 0⟩]).2

/-- `AdvancedTrackerMinIouTest.test_keep_last_bbox_when_missing`: the two
update calls of the retention scenario (lines 72-76). -/
def minIouScenarioOut : List TrackOut :=
  let cfg := mkTrackerCfg 2 (Rat.divInt 1 2)
  let s1 := (AdvancedTracker.update cfg AdvancedTracker.initState
    [⟨⟨100, 100, 150, 150⟩, 1, 0⟩]).1
  (AdvancedTracker.update cfg s1 []).2

/-- Number of events of a given direction and class in an event list. -/
def countEv (evs : List CrossEvent) (d : Direction) (c : Int) : Nat :=
  (evs.filter (fun e => decide (e.direction = d ∧ e.cls = c))).length

/-- Contribution of an optional event to one counter. -/
def countOpt (ev : Option CrossEvent) (d : Direction) (c : Int) : Nat :=
  match ev with
  | none => 0
  | some e => if e.direction = d ∧ e.cls = c then 1 else 0

/-- Registry well-formedness (spec section 3 invariants): every live track
id is below `next_id`, and a Lost track's `ttl_remaining` is positive and
at most the configured TTL.  It holds for the initial state and is preserved
by `update`. -/
def AdvancedTracker.Inv (cfg : TrackerCfg) (s : TrackerState) : Prop :=
  ∀ t ∈ s.tracks,
    t.id < s.next_id ∧
    (t.lost = true → 0 < t.ttl_remaining ∧ t.ttl_remaining ≤ cfg.lost_ttl)

/-- A one-track state for exercising the TTL-expiry theorem: the state after
one update of a fresh `lost_ttl = 1` tracker with a single detection. -/
def c3State : TrackerState :=
  (AdvancedTracker.update (mkTrackerCfg 1) AdvancedTracker.initState
    [⟨⟨0, 0, 10, 10⟩, 1, 0⟩]).1

/-- Example camera entry for exercising the validator: only an `ip`. -/
def exCamInput : PV := .dict [("ip", .s "10.0.0.5")]

/-- Example configuration holding the one camera. -/
def exConfig : PV := .dict [("camaras", .arr [exCamInput])]

/-- The repaired camera entry produced for `exCamInput`. -/
def exValidatedCam : List (String × PV) := [
  ("ip", .s "10.0.0.5"),
  ("discarded_grid_cells", .arr []),
  ("cell_presets", .dict []),
  ("cell_ptz_map", .dict []),
  ("usuario", .s "admin"),
  ("contrasena", .s ""),
  ("tipo", .s "fija"),
  ("confianza", .q (Rat.divInt 1 2)),
  ("intervalo", .i 80),
  ("imgsz", .i 640),
  ("device", .s "cpu"),
  ("resolucion", .s "main"),
  ("umbral", .q (Rat.divInt 1 2)),
  ("guardar_capturas", .b false),
  ("modo_centinela", .b false),
  ("lost_ttl", .i 5),
  ("modelos", .arr [.s "Personas"])]

/-- The repaired configuration produced for `exConfig`. -/
def exValidatedTop : List (String × PV) := [("camaras", .arr [.dict exValidatedCam])]

/-! ## Association-list lemmas -/

theorem dlookup_dset_self (l : List (String × PV)) (k : String) (v : PV) :
    dlookup (dset l k v) k = some v := by
  induction l with
  | nil => simp [dset, dlookup]
  | cons p rest ih =>
    by_cases h : p.1 = k
    · simp [dset, h, dlookup]
    · simp [dset, h, dlookup, ih]

theorem dlookup_dset_ne (l : List (String × PV)) (k : String) (v : PV) (k' : String)
    (h : k ≠ k') : dlookup (dset l k v) k' = dlookup l k' := by
  induction l with
  | nil => simp [dset, dlookup, h]
  | cons p rest ih =>
    unfold dset
    by_cases hp : p.1 = k
    · rw [if_pos hp]
      have hpk' : p.1 ≠ k' := by rw [hp]; exact h
      simp [dlookup, h, hpk']
    · rw [if_neg hp]
      by_cases hp' : p.1 = k'
      · simp [dlookup, hp']
      · simp [dlookup, hp', ih]

theorem dcontains_iff_mem (l : List (String × PV)) (k : String) :
    dcontains l k = true ↔ k ∈ l.map (·.1) := by
  induction l with
  | nil => simp [dcontains, dlookup]
  | cons p rest ih =>
    by_cases hp : p.1 = k
    · simp [dcontains, dlookup, hp]
    · simp only [dcontains, dlookup, if_neg hp, List.map_cons, List.mem_cons]
      rw [← dcontains]
      constructor
      · intro hc
        exact Or.inr (ih.mp hc)
      · intro hc
        rcases hc with hc | hc
        · exact absurd hc.symm hp
        · exact ih.mpr hc

theorem dlookup_eq_none_of_not_contains {l : List (String × PV)} {k : String}
    (h : dcontains l k = false) : dlookup l k = none := by
  unfold dcontains at h
  exact Option.not_isSome_iff_eq_none.mp (by simp [h])

theorem dcontains_dset_of_contains {l : List (String × PV)} {k0 : String} {v : PV}
    (hk0 : dcontains l k0 = true) (k : String) :
    dcontains (dset l k0 v) k = dcontains l k := by
  by_cases h : k0 = k
  · subst h
    rw [hk0]
    simp [dcontains, dlookup_dset_self]
  · simp [dcontains, dlookup_dset_ne l k0 v k h]

theorem dkeys_dset_of_contains {l : List (String × PV)} {k0 : String}
    (hk0 : dcontains l k0 = true) (v : PV) :
    (dset l k0 v).map (·.1) = l.map (·.1) := by
  induction l with
  | nil => simp [dcontains, dlookup] at hk0
  | cons p rest ih =>
    by_cases h : p.1 = k0
    · simp [dset, h]
    · have : dcontains rest k0 = true := by
        simpa [dcontains, dlookup, h] using hk0
      simp [dset, h, ih this]

theorem dcontains_applyOverrides (cfg items : List (String × PV)) (k : String) :
    dcontains (applyOverrides cfg items) k = dcontains cfg k := by
  induction items generalizing cfg with
  | nil => simp [applyOverrides]
  | cons kv rest ih =>
    show dcontains (applyOverrides (if dcontains cfg kv.1 then dset cfg kv.1 kv.2 else cfg) rest) k
      = dcontains cfg k
    by_cases h : dcontains cfg kv.1
    · rw [if_pos h, ih, dcontains_dset_of_contains h]
    · rw [if_neg h, ih]

theorem dkeys_applyOverrides (cfg items : List (String × PV)) :
    (applyOverrides cfg items).map (·.1) = cfg.map (·.1) := by
  induction items generalizing cfg with
  | nil => simp [applyOverrides]
  | cons kv rest ih =>
    show (applyOverrides (if dcontains cfg kv.1 then dset cfg kv.1 kv.2 else cfg) rest).map (·.1)
      = cfg.map (·.1)
    by_cases h : dcontains cfg kv.1
    · rw [if_pos h, ih, dkeys_dset_of_contains h]
    · rw [if_neg h, ih]

theorem dlookup_cons_ne {p : String × PV} {rest : List (String × PV)} {k : String}
    (h : p.1 ≠ k) : dlookup (p :: rest) k = dlookup rest k := by
  simp [dlookup, h]

theorem dlookup_applyOverrides (cfg items : List (String × PV)) (k : String)
    (hnd : (items.map (·.1)).Nodup) :
    dlookup (applyOverrides cfg items) k =
      if dcontains items k ∧ dcontains cfg k then dlookup items k else dlookup cfg k := by
  induction items generalizing cfg with
  | nil =>
    simp [applyOverrides, dcontains, dlookup]
  | cons kv rest ih =>
    have hnd' : (rest.map (·.1)).Nodup := (List.nodup_cons.mp hnd).2
    have hknotin : kv.1 ∉ rest.map (·.1) := (List.nodup_cons.mp hnd).1
    have hrest : dcontains rest kv.1 = false := by
      cases hcc : dcontains rest kv.1
      · rfl
      · exact absurd ((dcontains_iff_mem _ _).mp hcc) hknotin
    have step : applyOverrides cfg (kv :: rest) =
        applyOverrides (if dcontains cfg kv.1 then dset cfg kv.1 kv.2 else cfg) rest := rfl
    rw [step]
    by_cases hk : kv.1 = k
    · subst hk
      by_cases hc : dcontains cfg kv.1
      · rw [if_pos hc, ih _ hnd', if_neg (by simp [hrest]), dlookup_dset_self]
        have hcs : dcontains (kv :: rest) kv.1 = true := by simp [dcontains, dlookup]
        rw [if_pos ⟨hcs, hc⟩]
        simp [dlookup]
      · rw [if_neg hc, ih _ hnd', if_neg (by simp [hrest]), if_neg (by simp [hc])]
    · have hl : dlookup (kv :: rest) k = dlookup rest k := dlookup_cons_ne hk
      have hc2 : dcontains (kv :: rest) k = dcontains rest k := by
        simp [dcontains, hl]
      by_cases hc : dcontains cfg kv.1
      · rw [if_pos hc, ih _ hnd', hl, hc2,
          dcontains_dset_of_contains hc, dlookup_dset_ne cfg kv.1 kv.2 k hk]
      · rw [if_neg hc, ih _ hnd', hl, hc2]

theorem modelEntry_nodup {mk : Option String} {mc : List (String × PV)}
    (h : modelEntry mk = some mc) : (mc.map (·.1)).Nodup := by
  cases mk with
  | none => simp [modelEntry] at h
  | some m =>
    rw [show modelEntry (some m) =
        (match dlookup objectConfigs m with
          | some (.dict mc) => some mc
          | _ => none) from rfl] at h
    simp only [objectConfigs, dlookup] at h
    split_ifs at h <;> simp only [Option.some.injEq] at h <;> try subst h
    · decide
    · decide
    · decide
    · decide

theorem get_tracker_config_model_stage (mk : Option String) (oc : List (String × PV)) :
    (get_tracker_config mk oc).2 =
      (let c1 :=
        match modelEntry mk with
        | some mc => applyOverrides TRACKER_CONFIG mc
        | none => TRACKER_CONFIG
       if oc.isEmpty then c1 else applyOverrides c1 oc) := by
  cases mk with
  | none => rfl
  | some m =>
    by_cases hm : m = ""
    · subst hm; rfl
    · rw [show modelEntry (some m) =
          (match dlookup objectConfigs m with
            | some (.dict mc) => some mc
            | _ => none) from rfl]
      unfold get_tracker_config
      dsimp only
      rw [if_neg hm,
        show dlookup TRACKER_CONFIG "object_configs" = some (.dict objectConfigs) from rfl]
      dsimp only
      cases hml : dlookup objectConfigs m with
      | none => rfl
      | some v => cases v <;> rfl

theorem dcontains_nil (k : String) : dcontains [] k = false := rfl

theorem get_tracker_config_resolution (mk : Option String) (oc : List (String × PV))
    (hnd : (oc.map (·.1)).Nodup) :
    (get_tracker_config mk oc).1 = TRACKER_CONFIG ∧
    (get_tracker_config mk oc).2.map (·.1) = TRACKER_CONFIG.map (·.1) ∧
    ∀ k, dlookup (get_tracker_config mk oc).2 k = get_tracker_config_spec mk oc k := by
  refine ⟨rfl, ?_, ?_⟩
  · rw [get_tracker_config_model_stage]
    cases hme : modelEntry mk with
    | none => by_cases he : oc.isEmpty <;> simp [he, dkeys_applyOverrides]
    | some mc => by_cases he : oc.isEmpty <;> simp [he, dkeys_applyOverrides]
  · intro k
    rw [get_tracker_config_model_stage]
    unfold get_tracker_config_spec
    cases hme : modelEntry mk with
    | none =>
      by_cases he : oc.isEmpty
      · have hoc : oc = [] := List.isEmpty_iff.mp he
        subst hoc
        simp only [List.isEmpty_nil, if_true]
        cases hA : dcontains TRACKER_CONFIG k
        · simp [hA, dcontains_nil, dlookup_eq_none_of_not_contains hA]
        · simp [hA, dcontains_nil]
      · rw [if_neg he, dlookup_applyOverrides _ _ _ hnd]
        cases hA : dcontains TRACKER_CONFIG k
        · cases hB : dcontains oc k <;>
            simp [hA, hB, dlookup_eq_none_of_not_contains hA]
        · cases hB : dcontains oc k <;> simp [hA, hB]
    | some mc =>
      have hmcnd := modelEntry_nodup hme
      by_cases he : oc.isEmpty
      · have hoc : oc = [] := List.isEmpty_iff.mp he
        subst hoc
        simp only [List.isEmpty_nil, if_true]
        rw [dlookup_applyOverrides _ _ _ hmcnd]
        cases hA : dcontains TRACKER_CONFIG k
        · cases hC : dcontains mc k <;>
            simp [hA, hC, dcontains_nil, dlookup_eq_none_of_not_contains hA]
        · cases hC : dcontains mc k <;> simp [hA, hC, dcontains_nil]
      · rw [if_neg he, dlookup_applyOverrides _ _ _ hnd, dcontains_applyOverrides,
          dlookup_applyOverrides _ _ _ hmcnd]
        cases hA : dcontains TRACKER_CONFIG k
        · cases hB : dcontains oc k <;> cases hC : dcontains mc k <;>
            simp [hA, hB, hC, dlookup_eq_none_of_not_contains hA]
        · cases hB : dcontains oc k <;> cases hC : dcontains mc k <;> simp [hA, hB, hC]

/-- C7: `get_tracker_config` resolves each top-level key to the override
value, else the model-specific value, else the base value; the result has
exactly `TRACKER_CONFIG`'s top-level keys, and the global `TRACKER_CONFIG`
top-level bindings are left unchanged by the call. -/
theorem get_tracker_config_per_class_resolution (mk : Option String)
    (oc : List (String × PV)) (hnd : (oc.map (·.1)).Nodup) :
    (get_tracker_config mk oc).1 = TRACKER_CONFIG ∧
    (get_tracker_config mk oc).2.map (·.1) = TRACKER_CONFIG.map (·.1) ∧
    ∀ k, dlookup (get_tracker_config mk oc).2 k = get_tracker_config_spec mk oc k :=
  get_tracker_config_resolution mk oc hnd

/-- C7 witness: the resolution theorem applied to the `Personas` model entry
with a one-key override. -/
theorem get_tracker_config_per_class_resolution_witness :
    (get_tracker_config (some "Personas") [("lost_ttl", PV.i 99)]).1 = TRACKER_CONFIG ∧
    (get_tracker_config (some "Personas") [("lost_ttl", PV.i 99)]).2.map (·.1) =
      TRACKER_CONFIG.map (·.1) ∧
    ∀ k, dlookup (get_tracker_config (some "Personas") [("lost_ttl", PV.i 99)]).2 k =
      get_tracker_config_spec (some "Personas") [("lost_ttl", PV.i 99)] k :=
  get_tracker_config_per_class_resolution (some "Personas") [("lost_ttl", PV.i 99)]
    (by decide)

/-- C8: `_point_to_segment_distance` divides only behind the degeneracy
guard — coincident endpoints take the Manhattan-length branch before the
division is reached, and otherwise the divisor `dx*dx + dy*dy` is strictly
positive. -/
theorem point_to_segment_distance_guarded (rt : ℚ → ℚ) (p a b : ℚ × ℚ) :
    (b.1 - a.1 = 0 ∧ b.2 - a.2 = 0 →
      point_to_segment_distance rt p a b = |p.1 - a.1| + |p.2 - a.2|) ∧
    (¬(b.1 - a.1 = 0 ∧ b.2 - a.2 = 0) →
      0 < (b.1 - a.1) * (b.1 - a.1) + (b.2 - a.2) * (b.2 - a.2)) := by
  constructor
  · intro h
    unfold point_to_segment_distance
    rw [if_pos h]
  · intro h
    rcases not_and_or.mp h with h1 | h1
    · have hx : 0 < (b.1 - a.1) * (b.1 - a.1) := mul_self_pos.mpr h1
      have hy : 0 ≤ (b.2 - a.2) * (b.2 - a.2) := mul_self_nonneg _
      linarith
    · have hx : 0 ≤ (b.1 - a.1) * (b.1 - a.1) := mul_self_nonneg _
      have hy : 0 < (b.2 - a.2) * (b.2 - a.2) := mul_self_pos.mpr h1
      linarith

/-- C8 witness: the degenerate branch at `a = b = (1, 1)` and the positive
divisor at `a = (1, 1)`, `b = (2, 1)`. -/
theorem point_to_segment_distance_guarded_witness :
    point_to_segment_distance (fun x => x) (3, 4) (1, 1) (1, 1) =
      |(3 : ℚ) - 1| + |(4 : ℚ) - 1| ∧
    (0 : ℚ) < ((2 : ℚ) - 1) * ((2 : ℚ) - 1) + ((1 : ℚ) - 1) * ((1 : ℚ) - 1) :=
  ⟨(point_to_segment_distance_guarded (fun x => x) (3, 4) (1, 1) (1, 1)).1
      (by norm_num),
    (point_to_segment_distance_guarded (fun x => x) (3, 4) (1, 1) (2, 1)).2
      (by norm_num)⟩

unseal Rat.add Rat.mul Rat.sub Rat.inv in
/-- C1: the occlusion-reassignment scenario of the tracker test — two
observations establishing rightward velocity, a missed frame, then a
reappearance along the predicted trajectory with `lost_ttl = 2` — outputs
exactly the original track id 0 on the fourth update. -/
theorem reassign_after_occlusion_keeps_id :
    reassignScenarioOut.map (fun o => o.id) = [0] := by decide

unseal Rat.add Rat.mul Rat.sub Rat.inv in
/-- C2: with `lost_ttl = 2` and `min_iou_update = 0.5`, one observation at
`[100, 100, 150, 150]` followed by an empty frame returns exactly one track
whose bbox is the unchanged `[100, 100, 150, 150]`. -/
theorem keep_last_bbox_when_missing :
    minIouScenarioOut.map (fun o => o.bbox) = [⟨100, 100, 150, 150⟩] := by decide

theorem lookupSide_setSide_self (m : List (Nat × Int)) (i : Nat) (v : Int) :
    lookupSide (setSide m i v) i = some v := by
  induction m with
  | nil => simp [setSide, lookupSide]
  | cons p rest ih =>
    by_cases h : p.1 = i
    · simp [setSide, h, lookupSide]
    · simp [setSide, h, lookupSide, ih]

theorem lookupSide_setSide_ne (m : List (Nat × Int)) (i : Nat) (v : Int) (j : Nat)
    (h : i ≠ j) : lookupSide (setSide m i v) j = lookupSide m j := by
  induction m with
  | nil => simp [setSide, lookupSide, h]
  | cons p rest ih =>
    by_cases hp : p.1 = i
    · have hpj : p.1 ≠ j := by rw [hp]; exact h
      simp [setSide, hp, lookupSide, h, hpj]
    · by_cases hpj : p.1 = j
      · have hji : j ≠ i := fun hji => h hji.symm
        simp [setSide, hp, lookupSide, hpj, hji]
      · simp [setSide, hp, lookupSide, hpj, ih]

theorem lineSide_cases (l : (ℚ × ℚ) × (ℚ × ℚ)) (p : ℚ × ℚ) :
    lineSide l p = 1 ∨ lineSide l p = -1 ∨ lineSide l p = 0 := by
  unfold lineSide
  dsimp only
  split_ifs <;> simp

theorem processBox_counts (st : CrossLineCounter) (h : List Nat) (sz : ℚ × ℚ) (b : CBoxIn)
    (d : Direction) (c : Int) :
    (CrossLineCounter.processBox st h sz b).1.counts d c =
      st.counts d c + countOpt (CrossLineCounter.processBox st h sz b).2.2 d c := by
  unfold CrossLineCounter.processBox
  by_cases hc : b.id ∈ h
  · rw [if_pos (show h.contains b.id = true by simpa using hc)]
    simp [countOpt]
  · rw [if_neg (show ¬h.contains b.id = true by simpa using hc)]
    by_cases hsd : lineSide st.line (b.bbox.cx / sz.1, b.bbox.cy / sz.2) = 0
    · rw [if_pos hsd]
      simp [countOpt]
    · rw [if_neg hsd]
      cases hprev : lookupSide st.prev_sides b.id with
      | none => simp [countOpt]
      | some p0 =>
        dsimp only
        by_cases hp0 : p0 = lineSide st.line (b.bbox.cx / sz.1, b.bbox.cy / sz.2)
        · rw [if_pos hp0]
          simp [countOpt]
        · rw [if_neg hp0]
          dsimp only [countOpt, bumpCount]
          by_cases hdc : (d = if lineSide st.line (b.bbox.cx / sz.1, b.bbox.cy / sz.2) = 1
              then Direction.entrada else Direction.salida) ∧ c = b.cls
          · rw [if_pos hdc, if_pos ⟨hdc.1.symm, hdc.2.symm⟩]
          · rw [if_neg hdc, if_neg (fun hcon => hdc ⟨hcon.1.symm, hcon.2.symm⟩), Nat.add_zero]

theorem processBox_shape (st : CrossLineCounter) (h : List Nat) (sz : ℚ × ℚ) (b : CBoxIn) :
    (CrossLineCounter.processBox st h sz b = (st, h, none) ∧ b.id ∈ h) ∨
    (∃ st', CrossLineCounter.processBox st h sz b = (st', b.id :: h, none) ∧ b.id ∉ h ∧
      st'.counts = st.counts ∧
      (st'.prev_sides = st.prev_sides ∨
        ∃ sd, st'.prev_sides = setSide st.prev_sides b.id sd)) ∨
    (∃ sd p0, b.id ∉ h ∧ lineSide st.line (b.bbox.cx / sz.1, b.bbox.cy / sz.2) = sd ∧
      sd ≠ 0 ∧ lookupSide st.prev_sides b.id = some p0 ∧ p0 ≠ sd ∧
      CrossLineCounter.processBox st h sz b =
        (CrossLineCounter.mk st.line (setSide st.prev_sides b.id sd)
            (bumpCount st.counts
              (if sd = 1 then Direction.entrada else Direction.salida) b.cls) st.active,
          b.id :: h,
          some ⟨b.id, b.cls, if sd = 1 then Direction.entrada else Direction.salida⟩)) := by
  unfold CrossLineCounter.processBox
  by_cases hc : b.id ∈ h
  · rw [if_pos (show h.contains b.id = true by simpa using hc)]
    exact Or.inl ⟨rfl, hc⟩
  · rw [if_neg (show ¬h.contains b.id = true by simpa using hc)]
    by_cases hsd : lineSide st.line (b.bbox.cx / sz.1, b.bbox.cy / sz.2) = 0
    · rw [if_pos hsd]
      exact Or.inr (Or.inl ⟨st, rfl, hc, rfl, Or.inl rfl⟩)
    · rw [if_neg hsd]
      cases hprev : lookupSide st.prev_sides b.id with
      | none =>
        exact Or.inr (Or.inl ⟨_, rfl, hc, rfl, Or.inr ⟨_, rfl⟩⟩)
      | some p0 =>
        dsimp only
        by_cases hp0 : p0 = lineSide st.line (b.bbox.cx / sz.1, b.bbox.cy / sz.2)
        · rw [if_pos hp0]
          exact Or.inr (Or.inl ⟨st, rfl, hc, rfl, Or.inl rfl⟩)
        · rw [if_neg hp0]
          exact Or.inr (Or.inr ⟨_, p0, hc, rfl, hsd, rfl, hp0, rfl⟩)

theorem countEv_nil (d : Direction) (c : Int) : countEv [] d c = 0 := rfl

theorem countEv_append (a b : List CrossEvent) (d : Direction) (c : Int) :
    countEv (a ++ b) d c = countEv a d c + countEv b d c := by
  simp [countEv]

theorem countEv_toList (ev : Option CrossEvent) (d : Direction) (c : Int) :
    countEv ev.toList d c = countOpt ev d c := by
  cases ev with
  | none => simp [countEv, countOpt]
  | some e =>
    by_cases hd : e.direction = d ∧ e.cls = c <;> simp [countEv, countOpt, hd]

theorem foldBoxes_counts (sz : ℚ × ℚ) (boxes : List CBoxIn) :
    ∀ (st : CrossLineCounter) (h : List Nat) (evs : List CrossEvent) (d : Direction) (c : Int),
    (boxes.foldl (CrossLineCounter.stepBox sz) (st, h, evs)).1.counts d c + countEv evs d c =
      st.counts d c + countEv (boxes.foldl (CrossLineCounter.stepBox sz) (st, h, evs)).2.2 d c := by
  induction boxes with
  | nil => intro st h evs d c; simp
  | cons b bs ih =>
    intro st h evs d c
    rw [List.foldl_cons]
    have hstep : CrossLineCounter.stepBox sz (st, h, evs) b =
        ((CrossLineCounter.processBox st h sz b).1,
          (CrossLineCounter.processBox st h sz b).2.1,
          evs ++ (CrossLineCounter.processBox st h sz b).2.2.toList) := rfl
    rw [hstep]
    have h1 := ih (CrossLineCounter.processBox st h sz b).1
      (CrossLineCounter.processBox st h sz b).2.1
      (evs ++ (CrossLineCounter.processBox st h sz b).2.2.toList) d c
    have h2 := processBox_counts st h sz b d c
    have h3 := countEv_append evs (CrossLineCounter.processBox st h sz b).2.2.toList d c
    have h4 := countEv_toList (CrossLineCounter.processBox st h sz b).2.2 d c
    omega

theorem foldBoxes_inv (sz : ℚ × ℚ) (boxes : List CBoxIn) :
    ∀ (st : CrossLineCounter) (h : List Nat) (evs : List CrossEvent),
    (∀ e ∈ evs, e.track_id ∈ h ∧
      lookupSide st.prev_sides e.track_id = some e.direction.newSide) →
    (evs.map (·.track_id)).Nodup →
    (∀ e ∈ (boxes.foldl (CrossLineCounter.stepBox sz) (st, h, evs)).2.2,
      e.track_id ∈ (boxes.foldl (CrossLineCounter.stepBox sz) (st, h, evs)).2.1 ∧
      lookupSide (boxes.foldl (CrossLineCounter.stepBox sz) (st, h, evs)).1.prev_sides
        e.track_id = some e.direction.newSide) ∧
    ((boxes.foldl (CrossLineCounter.stepBox sz) (st, h, evs)).2.2.map (·.track_id)).Nodup := by
  induction boxes with
  | nil => intro st h evs hinv hnd; exact ⟨hinv, hnd⟩
  | cons b bs ih =>
    intro st h evs hinv hnd
    rw [List.foldl_cons]
    rcases processBox_shape st h sz b with
      ⟨heq, hmem⟩ |
      ⟨st', heq, hbn, hcounts, hprev⟩ |
      ⟨sd, p0, hbn, hsd, hsd0, hp0eq, hp0ne, heq⟩
    · have hstep : CrossLineCounter.stepBox sz (st, h, evs) b = (st, h, evs) := by
        unfold CrossLineCounter.stepBox
        rw [heq]
        simp
      rw [hstep]
      exact ih st h evs hinv hnd
    · have hstep : CrossLineCounter.stepBox sz (st, h, evs) b = (st', b.id :: h, evs) := by
        unfold CrossLineCounter.stepBox
        rw [heq]
        simp
      rw [hstep]
      refine ih st' (b.id :: h) evs ?_ hnd
      intro e he
      obtain ⟨hm, hl⟩ := hinv e he
      refine ⟨List.mem_cons_of_mem _ hm, ?_⟩
      rcases hprev with hsame | ⟨sd, hset⟩
      · rw [hsame]; exact hl
      · rw [hset, lookupSide_setSide_ne _ _ _ _ (fun hbe => hbn (by rw [hbe]; exact hm))]
        exact hl
    · have hstep : CrossLineCounter.stepBox sz (st, h, evs) b =
          (CrossLineCounter.mk st.line (setSide st.prev_sides b.id sd)
            (bumpCount st.counts
              (if sd = 1 then Direction.entrada else Direction.salida) b.cls) st.active,
            b.id :: h,
            evs ++ [⟨b.id, b.cls, if sd = 1 then Direction.entrada else Direction.salida⟩]) := by
        unfold CrossLineCounter.stepBox
        rw [heq]
        simp
      rw [hstep]
      have hnewside :
          (if sd = 1 then Direction.entrada else Direction.salida).newSide = sd := by
        rcases lineSide_cases st.line (b.bbox.cx / sz.1, b.bbox.cy / sz.2) with h1 | h1 | h1 <;>
          rw [hsd] at h1
        · rw [h1]; simp [Direction.newSide]
        · rw [h1]; simp [Direction.newSide]
        · exact absurd h1 hsd0
      refine ih _ (b.id :: h) _ ?_ ?_
      · intro e he
        rcases List.mem_append.mp he with hold | hnew
        · obtain ⟨hm, hl⟩ := hinv e hold
          refine ⟨List.mem_cons_of_mem _ hm, ?_⟩
          rw [lookupSide_setSide_ne _ _ _ _ (fun hbe => hbn (by rw [hbe]; exact hm))]
          exact hl
        · rcases List.mem_singleton.mp hnew with rfl
          refine ⟨List.mem_cons_self _ _, ?_⟩
          rw [lookupSide_setSide_self, hnewside]
      · rw [List.map_append]
        refine List.Nodup.append hnd (by simp) ?_
        intro x hx hy
        simp only [List.map_cons, List.map_nil, List.mem_singleton] at hy
        subst hy
        rcases List.mem_map.mp hx with ⟨e, he, hid⟩
        exact hbn (hid ▸ (hinv e he).1)

theorem foldBoxes_no_events (sz : ℚ × ℚ) (boxes : List CBoxIn) :
    ∀ (st : CrossLineCounter) (h : List Nat) (evs : List CrossEvent),
    (∀ i, i ∉ h → lookupSide st.prev_sides i = none) →
    (boxes.foldl (CrossLineCounter.stepBox sz) (st, h, evs)).2.2 = evs := by
  induction boxes with
  | nil => intro st h evs _; rfl
  | cons b bs ih =>
    intro st h evs hprev0
    rw [List.foldl_cons]
    rcases processBox_shape st h sz b with
      ⟨heq, hmem⟩ |
      ⟨st', heq, hbn, hcounts, hprev⟩ |
      ⟨sd, p0, hbn, hsd, hsd0, hp0eq, hp0ne, heq⟩
    · have hstep : CrossLineCounter.stepBox sz (st, h, evs) b = (st, h, evs) := by
        unfold CrossLineCounter.stepBox
        rw [heq]
        simp
      rw [hstep]
      exact ih st h evs hprev0
    · have hstep : CrossLineCounter.stepBox sz (st, h, evs) b = (st', b.id :: h, evs) := by
        unfold CrossLineCounter.stepBox
        rw [heq]
        simp
      rw [hstep]
      refine ih st' (b.id :: h) evs ?_
      intro i hi
      have hih : i ∉ h := fun hin => hi (List.mem_cons_of_mem _ hin)
      have hib : i ≠ b.id := fun hib => hi (hib ▸ List.mem_cons_self _ _)
      rcases hprev with hsame | ⟨sd, hset⟩
      · rw [hsame]; exact hprev0 i hih
      · rw [hset, lookupSide_setSide_ne _ _ _ _ (fun hbe => hib hbe.symm)]
        exact hprev0 i hih
    · exact absurd (hprev0 b.id hbn) (by rw [hp0eq]; simp)

/-- C4: in one `update_boxes` call no track id produces more than one event;
after an event the new side is the recorded previous side (so a further
event for that track requires crossing back); and every counter equals its
old value plus exactly the number of this call's events of that direction
and class. -/
theorem cross_line_debounce (st : CrossLineCounter) (boxes : List CBoxIn) (sz : ℚ × ℚ) :
    (((CrossLineCounter.update_boxes st boxes sz).2.map (·.track_id)).Nodup) ∧
    (∀ e ∈ (CrossLineCounter.update_boxes st boxes sz).2,
      lookupSide (CrossLineCounter.update_boxes st boxes sz).1.prev_sides e.track_id =
        some e.direction.newSide) ∧
    (∀ d c, (CrossLineCounter.update_boxes st boxes sz).1.counts d c =
      st.counts d c + countEv (CrossLineCounter.update_boxes st boxes sz).2 d c) := by
  unfold CrossLineCounter.update_boxes
  by_cases ha : st.active
  · rw [if_pos ha]
    dsimp only
    have hinv := foldBoxes_inv sz boxes st [] [] (by simp) (by simp)
    refine ⟨hinv.2, fun e he => (hinv.1 e he).2, fun d c => ?_⟩
    have hc := foldBoxes_counts sz boxes st [] [] d c
    rw [countEv_nil] at hc
    omega
  · rw [if_neg ha]
    refine ⟨by simp, by simp, fun d c => ?_⟩
    rw [countEv_nil]
    simp

/-- C5: `enable_cross_line`, `disable_cross_line` and `set_line` all empty
the per-track side memory and zero every counter regardless of prior state;
each is idempotent; `set_line` installs the new line; and the first
`update_boxes` after a line reset emits no events. -/
theorem line_redefinition_resets (w : GrillaWidgetCL) (st : CrossLineCounter)
    (l : (ℚ × ℚ) × (ℚ × ℚ)) (boxes : List CBoxIn) (sz : ℚ × ℚ)
    (d : Direction) (c : Int) :
    w.enable_cross_line.cross_counter.prev_sides = [] ∧
    w.enable_cross_line.cross_counter.counts d c = 0 ∧
    w.enable_cross_line.cross_counts d c = 0 ∧
    w.enable_cross_line.enable_cross_line = w.enable_cross_line ∧
    w.disable_cross_line.cross_counter.prev_sides = [] ∧
    w.disable_cross_line.cross_counter.counts d c = 0 ∧
    w.disable_cross_line.cross_counts d c = 0 ∧
    w.disable_cross_line.disable_cross_line = w.disable_cross_line ∧
    (st.set_line l).prev_sides = [] ∧
    (st.set_line l).counts d c = 0 ∧
    (st.set_line l).line = l ∧
    (st.set_line l).set_line l = st.set_line l ∧
    ((st.set_line l).update_boxes boxes sz).2 = [] := by
  refine ⟨rfl, rfl, rfl, rfl, rfl, rfl, rfl, rfl, rfl, rfl, rfl, rfl, ?_⟩
  unfold CrossLineCounter.update_boxes
  by_cases ha : (st.set_line l).active
  · rw [if_pos ha]
    dsimp only
    exact foldBoxes_no_events sz boxes _ [] []
      (fun i _ => by simp [CrossLineCounter.set_line, lookupSide])
  · rw [if_neg ha]

/-- C6: an `update_boxes` call never decreases any (direction, class)
counter. -/
theorem cross_counts_monotone (st : CrossLineCounter) (boxes : List CBoxIn)
    (sz : ℚ × ℚ) (d : Direction) (c : Int) :
    st.counts d c ≤ (st.update_boxes boxes sz).1.counts d c := by
  unfold CrossLineCounter.update_boxes
  by_cases ha : st.active
  · rw [if_pos ha]
    dsimp only
    have hc := foldBoxes_counts sz boxes st [] [] d c
    rw [countEv_nil] at hc
    omega
  · rw [if_neg ha]

theorem lookupDet_mem {ps : List (Nat × Det)} {i : Nat} {d : Det}
    (h : lookupDet ps i = some d) : i ∈ ps.map (·.1) := by
  induction ps with
  | nil => simp [lookupDet] at h
  | cons p rest ih =>
    by_cases hp : p.1 = i
    · simp [hp]
    · rw [lookupDet, if_neg hp] at h
      simpa using Or.inr (ih h)

theorem newTracks_mem {cfg : TrackerCfg} {ds : List Det} :
    ∀ {n0 : Nat} {t : Track}, t ∈ AdvancedTracker.newTracks cfg n0 ds →
    n0 ≤ t.id ∧ t.id < n0 + ds.length ∧ t.lost = false := by
  induction ds with
  | nil => intro n0 t h; simp [AdvancedTracker.newTracks] at h
  | cons d rest ih =>
    intro n0 t h
    rw [AdvancedTracker.newTracks] at h
    rcases List.mem_cons.mp h with rfl | h
    · exact ⟨Nat.le_refl _, by simp, rfl⟩
    · obtain ⟨h1, h2, h3⟩ := ih h
      refine ⟨by omega, ?_, h3⟩
      simp only [List.length_cons]
      omega

theorem applyHit_fields (cfg : TrackerCfg) (t : Track) (d : Det) :
    (AdvancedTracker.applyHit cfg t d).id = t.id ∧
    (AdvancedTracker.applyHit cfg t d).lost = false := ⟨rfl, rfl⟩

theorem applyRelink_fields (cfg : TrackerCfg) (t : Track) (d : Det) :
    (AdvancedTracker.applyRelink cfg t d).id = t.id ∧
    (AdvancedTracker.applyRelink cfg t d).lost = false := ⟨rfl, rfl⟩

theorem applyMiss_cases {cfg : TrackerCfg} {t t' : Track}
    (h : AdvancedTracker.applyMiss cfg t = some t') :
    t'.id = t.id ∧ t'.lost = true ∧
    ((t.lost = true ∧ 1 < t.ttl_remaining ∧ t'.ttl_remaining = t.ttl_remaining - 1) ∨
      (t.lost = false ∧ cfg.lost_ttl ≠ 0 ∧ t'.ttl_remaining = cfg.lost_ttl)) := by
  unfold AdvancedTracker.applyMiss at h
  by_cases hl : t.lost
  · rw [if_pos hl] at h
    by_cases httl : t.ttl_remaining ≤ 1
    · rw [if_pos httl] at h
      exact absurd h (by simp)
    · rw [if_neg httl] at h
      cases h
      exact ⟨rfl, hl, Or.inl ⟨hl, Nat.lt_of_not_le httl, rfl⟩⟩
  · rw [if_neg hl] at h
    by_cases h0 : cfg.lost_ttl = 0
    · rw [if_pos h0] at h
      exact absurd h (by simp)
    · rw [if_neg h0] at h
      cases h
      exact ⟨rfl, rfl, Or.inr ⟨Bool.eq_false_iff.mpr hl, h0, rfl⟩⟩

theorem stepTrack_characterize {cfg : TrackerCfg} {m r : List (Nat × Det)} {t t' : Track}
    {o : TrackOut} (h : AdvancedTracker.stepTrack cfg m r t = some (t', o)) :
    t'.id = t.id ∧
    (t'.lost = false ∨ AdvancedTracker.applyMiss cfg t = some t') := by
  unfold AdvancedTracker.stepTrack at h
  cases hm : lookupDet m t.id with
  | some d =>
    rw [hm] at h
    dsimp only at h
    have ht' : t' = AdvancedTracker.applyHit cfg t d := by
      cases h; rfl
    subst ht'
    exact ⟨rfl, Or.inl rfl⟩
  | none =>
    rw [hm] at h
    dsimp only at h
    cases hr : lookupDet r t.id with
    | some d =>
      rw [hr] at h
      dsimp only at h
      have ht' : t' = AdvancedTracker.applyRelink cfg t d := by
        cases h; rfl
      subst ht'
      exact ⟨rfl, Or.inl rfl⟩
    | none =>
      rw [hr] at h
      dsimp only at h
      cases hmiss : AdvancedTracker.applyMiss cfg t with
      | none => simp [hmiss] at h
      | some tm =>
        rw [hmiss] at h
        simp only [Option.map_some', Option.some.injEq] at h
        have ht' : t' = tm := congrArg Prod.fst h.symm
        subst ht'
        exact ⟨(applyMiss_cases hmiss).1, Or.inr rfl⟩

theorem update_next_id (cfg : TrackerCfg) (s : TrackerState) (ds : List Det) :
    (AdvancedTracker.update cfg s ds).1.next_id =
      s.next_id + (AdvancedTracker.hitAssignments cfg s ds).2.2.length := rfl

theorem mem_update_tracks {cfg : TrackerCfg} {s : TrackerState} {ds : List Det} {t' : Track}
    (h : t' ∈ (AdvancedTracker.update cfg s ds).1.tracks) :
    (∃ t ∈ s.tracks, ∃ o, AdvancedTracker.stepTrack cfg
        (AdvancedTracker.hitAssignments cfg s ds).1
        (AdvancedTracker.hitAssignments cfg s ds).2.1 t = some (t', o)) ∨
    (s.next_id ≤ t'.id ∧
      t'.id < s.next_id + (AdvancedTracker.hitAssignments cfg s ds).2.2.length ∧
      t'.lost = false) := by
  unfold AdvancedTracker.update at h
  dsimp only at h
  rcases List.mem_append.mp h with hl | hr
  · left
    rcases List.mem_map.mp hl with ⟨p, hp, hfst⟩
    rcases List.mem_filterMap.mp hp with ⟨t, ht, hstep⟩
    exact ⟨t, ht, p.2, by rw [hstep, ← hfst]⟩
  · right
    exact newTracks_mem hr

theorem hitIds_lookup_none {cfg : TrackerCfg} {s : TrackerState} {ds : List Det} {i : Nat}
    (h : i ∉ AdvancedTracker.hitIds cfg s ds) :
    lookupDet (AdvancedTracker.hitAssignments cfg s ds).1 i = none ∧
    lookupDet (AdvancedTracker.hitAssignments cfg s ds).2.1 i = none := by
  constructor
  · cases hm : lookupDet (AdvancedTracker.hitAssignments cfg s ds).1 i with
    | none => rfl
    | some d =>
      exact absurd (by
        unfold AdvancedTracker.hitIds
        exact List.mem_append.mpr (Or.inl (lookupDet_mem hm))) h
  · cases hm : lookupDet (AdvancedTracker.hitAssignments cfg s ds).2.1 i with
    | none => rfl
    | some d =>
      exact absurd (by
        unfold AdvancedTracker.hitIds
        exact List.mem_append.mpr (Or.inr (lookupDet_mem hm))) h

theorem stepTrack_miss {cfg : TrackerCfg} {m r : List (Nat × Det)} {t : Track}
    (hm : lookupDet m t.id = none) (hr : lookupDet r t.id = none) :
    AdvancedTracker.stepTrack cfg m r t =
      (AdvancedTracker.applyMiss cfg t).map
        (fun t' => (t', ⟨t'.id, t'.predictBox cfg, t'.cls, t'.conf⟩)) := by
  unfold AdvancedTracker.stepTrack
  rw [hm, hr]

theorem dead_stays_dead_step {cfg : TrackerCfg} {s : TrackerState} {i : Nat}
    (hdead : i ∉ AdvancedTracker.liveIds s) (hlt : i < s.next_id) (ds : List Det) :
    i ∉ AdvancedTracker.liveIds (AdvancedTracker.update cfg s ds).1 ∧
    i < (AdvancedTracker.update cfg s ds).1.next_id := by
  constructor
  · intro hmem
    rcases List.mem_map.mp hmem with ⟨t', ht', hid⟩
    rcases mem_update_tracks ht' with ⟨t, ht, o, hstep⟩ | ⟨h1, h2, h3⟩
    · have hideq : t'.id = t.id := (stepTrack_characterize hstep).1
      exact hdead (List.mem_map.mpr ⟨t, ht, by rw [← hideq, hid]⟩)
    · omega
  · rw [update_next_id]
    omega

theorem Inv_update {cfg : TrackerCfg} {s : TrackerState}
    (hinv : AdvancedTracker.Inv cfg s) (ds : List Det) :
    AdvancedTracker.Inv cfg (AdvancedTracker.update cfg s ds).1 := by
  intro t' ht'
  rcases mem_update_tracks ht' with ⟨t, ht, o, hstep⟩ | ⟨h1, h2, h3⟩
  · obtain ⟨hid, hcase⟩ := stepTrack_characterize hstep
    obtain ⟨hidlt, httl⟩ := hinv t ht
    constructor
    · rw [hid, update_next_id]
      omega
    · intro hlost
      rcases hcase with hnl | hmiss
      · rw [hnl] at hlost
        exact absurd hlost (by simp)
      · obtain ⟨_, _, hc⟩ := applyMiss_cases hmiss
        rcases hc with ⟨hl, hgt, he⟩ | ⟨hl, hne, he⟩
        · obtain ⟨hp, hle⟩ := httl hl
          rw [he]
          omega
        · rw [he]
          omega
  · constructor
    · rw [update_next_id]
      omega
    · intro hlost
      rw [h3] at hlost
      exact absurd hlost (by simp)

theorem run_cons (cfg : TrackerCfg) (s : TrackerState) (ds : List Det)
    (rest : List (List Det)) :
    AdvancedTracker.run cfg s (ds :: rest) =
      AdvancedTracker.run cfg (AdvancedTracker.update cfg s ds).1 rest := rfl

theorem run_next_id_mono (cfg : TrackerCfg) (frames : List (List Det)) :
    ∀ s : TrackerState, s.next_id ≤ (AdvancedTracker.run cfg s frames).next_id := by
  induction frames with
  | nil => intro s; exact Nat.le_refl _
  | cons ds rest ih =>
    intro s
    rw [run_cons]
    refine Nat.le_trans ?_ (ih _)
    rw [update_next_id]
    omega

theorem dead_stays_dead_run (cfg : TrackerCfg) (frames : List (List Det)) :
    ∀ (s : TrackerState) (i : Nat), i ∉ AdvancedTracker.liveIds s → i < s.next_id →
    i ∉ AdvancedTracker.liveIds (AdvancedTracker.run cfg s frames) := by
  induction frames with
  | nil => intro s i hdead _; exact hdead
  | cons ds rest ih =>
    intro s i hdead hlt
    rw [run_cons]
    obtain ⟨h1, h2⟩ := dead_stays_dead_step hdead hlt ds
    exact ih _ i h1 h2

theorem expiry_aux (cfg : TrackerCfg) (frames : List (List Det)) :
    ∀ (s : TrackerState) (i : Nat), AdvancedTracker.Inv cfg s → i < s.next_id →
    (∀ t ∈ s.tracks, t.id = i →
      (if t.lost then t.ttl_remaining else cfg.lost_ttl + 1) ≤ frames.length) →
    AdvancedTracker.neverHit cfg s frames i = true →
    i ∉ AdvancedTracker.liveIds (AdvancedTracker.run cfg s frames) := by
  induction frames with
  | nil =>
    intro s i hinv _ hbud _ hmem
    rcases List.mem_map.mp hmem with ⟨t, ht, hid⟩
    have hb := hbud t ht hid
    obtain ⟨_, httl⟩ := hinv t ht
    by_cases hl : t.lost = true
    · rw [if_pos hl] at hb
      obtain ⟨hp, _⟩ := httl hl
      simp at hb
      omega
    · rw [if_neg hl] at hb
      simp at hb
  | cons ds rest ih =>
    intro s i hinv hni hbud hmiss
    rw [AdvancedTracker.neverHit, Bool.and_eq_true] at hmiss
    obtain ⟨h1b, h2⟩ := hmiss
    have h1 : i ∉ AdvancedTracker.hitIds cfg s ds := by simpa using h1b
    rw [run_cons]
    refine ih _ i (Inv_update hinv ds) ?_ ?_ h2
    · rw [update_next_id]; omega
    · intro t' ht' hid'
      rcases mem_update_tracks ht' with ⟨t, ht, o, hstep⟩ | ⟨hge, _, _⟩
      · have hidt : t.id = i := by rw [← (stepTrack_characterize hstep).1, hid']
        have hb := hbud t ht hidt
        obtain ⟨hm, hr⟩ := hitIds_lookup_none h1
        rw [← hidt] at hm hr
        rw [stepTrack_miss hm hr] at hstep
        cases hmiss2 : AdvancedTracker.applyMiss cfg t with
        | none => rw [hmiss2] at hstep; simp at hstep
        | some tm =>
          rw [hmiss2] at hstep
          simp only [Option.map_some', Option.some.injEq] at hstep
          have htm : tm = t' := congrArg Prod.fst hstep
          obtain ⟨_, hlost', hc⟩ := applyMiss_cases hmiss2
          rw [htm] at hlost' hc
          rw [if_pos hlost']
          rcases hc with ⟨hl, hgt, he⟩ | ⟨hl, hne, he⟩
          · rw [if_pos hl] at hb
            rw [he]
            simp only [List.length_cons] at hb
            omega
          · rw [hl] at hb
            simp only [Bool.false_eq_true, if_false, List.length_cons] at hb
            rw [he]
            omega
      · rw [hid'] at hge
        omega

/-- C3: a live track that receives no qualifying detection for more than
`lost_ttl` consecutive frames is absent from the visible output after those
frames and from every later frame's output — its id is never assigned
again. -/
theorem ttl_expiry_and_id_non_reuse (cfg : TrackerCfg) (s : TrackerState) (i : Nat)
    (frames : List (List Det)) (hinv : AdvancedTracker.Inv cfg s)
    (hlive : i ∈ AdvancedTracker.liveIds s)
    (hlen : cfg.lost_ttl + 1 ≤ frames.length)
    (hmiss : AdvancedTracker.neverHit cfg s frames i = true) :
    i ∉ AdvancedTracker.liveIds (AdvancedTracker.run cfg s frames) ∧
    ∀ more, i ∉ AdvancedTracker.liveIds
      (AdvancedTracker.run cfg (AdvancedTracker.run cfg s frames) more) := by
  have hni : i < s.next_id := by
    rcases List.mem_map.mp hlive with ⟨t, ht, hid⟩
    rw [← hid]
    exact (hinv t ht).1
  have hbud : ∀ t ∈ s.tracks, t.id = i →
      (if t.lost then t.ttl_remaining else cfg.lost_ttl + 1) ≤ frames.length := by
    intro t ht _
    obtain ⟨_, httl⟩ := hinv t ht
    by_cases hl : t.lost = true
    · rw [if_pos hl]
      obtain ⟨_, hle⟩ := httl hl
      omega
    · rw [if_neg hl]
      exact hlen
  have hdead := expiry_aux cfg frames s i hinv hni hbud hmiss
  have hlt : i < (AdvancedTracker.run cfg s frames).next_id :=
    Nat.lt_of_lt_of_le hni (run_next_id_mono cfg frames s)
  exact ⟨hdead, fun more => dead_stays_dead_run cfg more _ i hdead hlt⟩

unseal Rat.add Rat.mul Rat.sub Rat.inv in
/-- C3 witness: with `lost_ttl = 1`, the single live track id 0 of
`c3State` is gone after two empty frames and never reappears. -/
theorem ttl_expiry_and_id_non_reuse_witness :
    0 ∉ AdvancedTracker.liveIds (AdvancedTracker.run (mkTrackerCfg 1) c3State [[], []]) ∧
    ∀ more, 0 ∉ AdvancedTracker.liveIds (AdvancedTracker.run (mkTrackerCfg 1)
      (AdvancedTracker.run (mkTrackerCfg 1) c3State [[], []]) more) :=
  ttl_expiry_and_id_non_reuse (mkTrackerCfg 1) c3State 0 [[], []]
    (by unfold AdvancedTracker.Inv; decide) (by decide) (by decide) (by decide)

theorem pyGet_dset_self (l : List (String × PV)) (k : String) (v : PV) :
    pyGet (dset l k v) k = v := by
  unfold pyGet
  rw [dlookup_dset_self]
  rfl

theorem pyGet_dset_ne (l : List (String × PV)) (k : String) (v : PV) {k' : String}
    (h : k ≠ k') : pyGet (dset l k v) k' = pyGet l k' := by
  unfold pyGet
  rw [dlookup_dset_ne _ _ _ _ h]

theorem dlookup_append_ne {l : List (String × PV)} {k k' : String} {v : PV}
    (h : k ≠ k') : dlookup (l ++ [(k, v)]) k' = dlookup l k' := by
  induction l with
  | nil => simp [dlookup, h]
  | cons p rest ih =>
    by_cases hp : p.1 = k'
    · simp [dlookup, hp]
    · simp [dlookup, hp, ih]

theorem pyGet_dsetdefault_ne (l : List (String × PV)) (k : String) (v : PV) {k' : String}
    (h : k ≠ k') : pyGet (dsetdefault l k v) k' = pyGet l k' := by
  unfold dsetdefault
  by_cases hc : dcontains l k
  · rw [if_pos hc]
  · rw [if_neg hc]
    unfold pyGet
    rw [dlookup_append_ne h]

theorem validate_discarded_cells_get_ne (l : List (String × PV)) {k : String}
    (h : k ≠ "discarded_grid_cells") :
    pyGet (validate_discarded_cells l) k = pyGet l k := by
  unfold validate_discarded_cells
  cases pyGetD l "discarded_grid_cells" (.arr []) <;>
    exact pyGet_dset_ne _ _ _ (fun he => h he.symm)

theorem validate_cell_presets_get_ne (l : List (String × PV)) {k : String}
    (h : k ≠ "cell_presets") :
    pyGet (validate_cell_presets l) k = pyGet l k := by
  unfold validate_cell_presets
  cases pyGetD l "cell_presets" (.dict []) <;>
    exact pyGet_dset_ne _ _ _ (fun he => h he.symm)

theorem validate_cell_ptz_map_get_ne (l : List (String × PV)) (m : List (PV × PV))
    {k : String} (h : k ≠ "cell_ptz_map") :
    pyGet (validate_cell_ptz_map l m) k = pyGet l k := by
  unfold validate_cell_ptz_map
  cases pyGetD l "cell_ptz_map" (.dict []) <;>
    exact pyGet_dset_ne _ _ _ (fun he => h he.symm)

theorem applyCamDefaults_get_ip (l : List (String × PV)) :
    pyGet (applyCamDefaults l) "ip" = pyGet l "ip" := by
  unfold applyCamDefaults
  rw [pyGet_dsetdefault_ne _ _ _ (by decide), pyGet_dsetdefault_ne _ _ _ (by decide),
    pyGet_dsetdefault_ne _ _ _ (by decide), pyGet_dsetdefault_ne _ _ _ (by decide),
    pyGet_dsetdefault_ne _ _ _ (by decide), pyGet_dsetdefault_ne _ _ _ (by decide),
    pyGet_dsetdefault_ne _ _ _ (by decide), pyGet_dsetdefault_ne _ _ _ (by decide),
    pyGet_dsetdefault_ne _ _ _ (by decide), pyGet_dsetdefault_ne _ _ _ (by decide),
    pyGet_dsetdefault_ne _ _ _ (by decide), pyGet_dsetdefault_ne _ _ _ (by decide),
    pyGet_dsetdefault_ne _ _ _ (by decide), pyGet_dsetdefault_ne _ _ _ (by decide),
    pyGet_dsetdefault_ne _ _ _ (by decide)]

theorem clampQ01_bounds (x : ℚ) : 0 ≤ clampQ01 x ∧ clampQ01 x ≤ 1 := by
  unfold clampQ01
  constructor
  · exact le_max_left 0 _
  · exact max_le (by norm_num) (min_le_left 1 x)

theorem setQClampedField_spec {l : List (String × PV)} {key : String}
    {l' : List (String × PV)} (h : setQClampedField l key = some l') :
    (∃ x : ℚ, pyGet l' key = .q x ∧ 0 ≤ x ∧ x ≤ 1) ∧
    ∀ k, k ≠ key → pyGet l' k = pyGet l k := by
  unfold setQClampedField at h
  cases hx : pyFloat (pyGetD l key (.q (Rat.divInt 1 2))) with
  | none => rw [hx] at h; exact absurd h (by simp)
  | some x =>
    rw [hx] at h
    simp only [Option.some.injEq] at h
    subst h
    exact ⟨⟨_, pyGet_dset_self _ _ _, (clampQ01_bounds x).1, (clampQ01_bounds x).2⟩,
      fun k hk => pyGet_dset_ne _ _ _ (fun he => hk he.symm)⟩

theorem setIntFloorField_spec {l : List (String × PV)} {key : String} {dflt : PV}
    {l' : List (String × PV)} (h : setIntFloorField l key dflt = some l') :
    (∃ n : Int, pyGet l' key = .i n ∧ 1 ≤ n) ∧
    ∀ k, k ≠ key → pyGet l' k = pyGet l k := by
  unfold setIntFloorField at h
  cases hx : pyInt (pyGetD l key dflt) with
  | none => rw [hx] at h; exact absurd h (by simp)
  | some n =>
    rw [hx] at h
    simp only [Option.some.injEq] at h
    subst h
    exact ⟨⟨_, pyGet_dset_self _ _ _, le_max_left 1 n⟩,
      fun k hk => pyGet_dset_ne _ _ _ (fun he => hk he.symm)⟩

theorem setIntRawField_spec {l : List (String × PV)} {key : String} {dflt : PV}
    {l' : List (String × PV)} (h : setIntRawField l key dflt = some l') :
    ∀ k, k ≠ key → pyGet l' k = pyGet l k := by
  unfold setIntRawField at h
  cases hx : pyInt (pyGetD l key dflt) with
  | none => rw [hx] at h; exact absurd h (by simp)
  | some n =>
    rw [hx] at h
    simp only [Option.some.injEq] at h
    subst h
    exact fun k hk => pyGet_dset_ne _ _ _ (fun he => hk he.symm)

theorem validateNumericFields_spec {l l' : List (String × PV)}
    (h : validateNumericFields l = some l') :
    (∃ x : ℚ, pyGet l' "confianza" = .q x ∧ 0 ≤ x ∧ x ≤ 1) ∧
    (∃ x : ℚ, pyGet l' "umbral" = .q x ∧ 0 ≤ x ∧ x ≤ 1) ∧
    (∃ n : Int, pyGet l' "intervalo" = .i n ∧ 1 ≤ n) ∧
    (∃ n : Int, pyGet l' "lost_ttl" = .i n ∧ 1 ≤ n) ∧
    (∀ k, k ≠ "confianza" → k ≠ "umbral" → k ≠ "intervalo" → k ≠ "imgsz" →
      k ≠ "lost_ttl" → pyGet l' k = pyGet l k) := by
  unfold validateNumericFields at h
  rcases Option.bind_eq_some.mp h with ⟨l1, h1, h⟩
  rcases Option.bind_eq_some.mp h with ⟨l2, h2, h⟩
  rcases Option.bind_eq_some.mp h with ⟨l3, h3, h⟩
  rcases Option.bind_eq_some.mp h with ⟨l4, h4, h5⟩
  obtain ⟨⟨cf, hcf, hcf0, hcf1⟩, hp1⟩ := setQClampedField_spec h1
  obtain ⟨⟨um, hum, hum0, hum1⟩, hp2⟩ := setQClampedField_spec h2
  obtain ⟨⟨iv, hiv, hiv1⟩, hp3⟩ := setIntFloorField_spec h3
  have hp4 := setIntRawField_spec h4
  obtain ⟨⟨lt, hlt, hlt1⟩, hp5⟩ := setIntFloorField_spec h5
  refine ⟨⟨cf, ?_, hcf0, hcf1⟩, ⟨um, ?_, hum0, hum1⟩, ⟨iv, ?_, hiv1⟩, ⟨lt, hlt, hlt1⟩, ?_⟩
  · rw [hp5 _ (by decide), hp4 _ (by decide), hp3 _ (by decide), hp2 _ (by decide)]
    exact hcf
  · rw [hp5 _ (by decide), hp4 _ (by decide), hp3 _ (by decide)]
    exact hum
  · rw [hp5 _ (by decide), hp4 _ (by decide)]
    exact hiv
  · intro k k1 k2 k3 k4 k5
    rw [hp5 _ k5, hp4 _ k4, hp3 _ k3, hp2 _ k2, hp1 _ k1]

theorem fixModelos_spec (l : List (String × PV)) :
    (∃ xs, pyGet (fixModelos l) "modelos" = .arr xs) ∧
    (∀ k, k ≠ "modelos" → pyGet (fixModelos l) k = pyGet l k) := by
  unfold fixModelos
  cases hm : pyGet l "modelos" with
  | arr xs => exact ⟨⟨xs, hm⟩, fun k _ => rfl⟩
  | null =>
    exact ⟨⟨_, pyGet_dset_self _ _ _⟩, fun k hk => pyGet_dset_ne _ _ _ (fun he => hk he.symm)⟩
  | b v =>
    exact ⟨⟨_, pyGet_dset_self _ _ _⟩, fun k hk => pyGet_dset_ne _ _ _ (fun he => hk he.symm)⟩
  | i n =>
    exact ⟨⟨_, pyGet_dset_self _ _ _⟩, fun k hk => pyGet_dset_ne _ _ _ (fun he => hk he.symm)⟩
  | q x =>
    exact ⟨⟨_, pyGet_dset_self _ _ _⟩, fun k hk => pyGet_dset_ne _ _ _ (fun he => hk he.symm)⟩
  | s v =>
    exact ⟨⟨_, pyGet_dset_self _ _ _⟩, fun k hk => pyGet_dset_ne _ _ _ (fun he => hk he.symm)⟩
  | dict d =>
    exact ⟨⟨_, pyGet_dset_self _ _ _⟩, fun k hk => pyGet_dset_ne _ _ _ (fun he => hk he.symm)⟩

theorem validateOneCam_dict (m : List (PV × PV)) (l0 : List (String × PV)) :
    validateOneCam m (.dict l0) =
      (if !pyTruthy (pyGet l0 "ip") then some none
       else
        finishCam (validateNumericFields (applyCamDefaults
          (validate_cell_ptz_map (validate_cell_presets (validate_discarded_cells l0))
            m)))) := rfl

theorem validateOneCam_valid {m : List (PV × PV)} {cam : PV} {l : List (String × PV)}
    (h : validateOneCam m cam = some (some l)) : ValidCam (.dict l) := by
  cases cam with
  | dict l0 =>
    rw [validateOneCam_dict] at h
    by_cases hip : pyTruthy (pyGet l0 "ip")
    · rw [if_neg (by rw [hip]; simp)] at h
      cases hnum : validateNumericFields
          (applyCamDefaults
            (validate_cell_ptz_map (validate_cell_presets (validate_discarded_cells l0)) m)) with
      | none => rw [hnum] at h; exact Option.noConfusion h
      | some ln =>
        rw [hnum] at h
        simp only [finishCam, Option.some.injEq] at h
        subst h
        obtain ⟨⟨cf, hcf, hcf0, hcf1⟩, ⟨um, hum, hum0, hum1⟩,
          ⟨iv, hiv, hiv1⟩, ⟨lt, hlt, hlt1⟩, hpres⟩ := validateNumericFields_spec hnum
        obtain ⟨⟨xs, hxs⟩, hfpres⟩ := fixModelos_spec ln
        refine ⟨_, rfl, ?_, ?_, ?_, ?_, ?_, ⟨xs, hxs⟩⟩
        · rw [hfpres "ip" (by decide), hpres "ip" (by decide) (by decide) (by decide)
            (by decide) (by decide), applyCamDefaults_get_ip,
            validate_cell_ptz_map_get_ne _ _ (by decide),
            validate_cell_presets_get_ne _ (by decide),
            validate_discarded_cells_get_ne _ (by decide)]
          exact hip
        · exact ⟨cf, by rw [hfpres "confianza" (by decide)]; exact hcf, hcf0, hcf1⟩
        · exact ⟨um, by rw [hfpres "umbral" (by decide)]; exact hum, hum0, hum1⟩
        · exact ⟨iv, by rw [hfpres "intervalo" (by decide)]; exact hiv, hiv1⟩
        · exact ⟨lt, by rw [hfpres "lost_ttl" (by decide)]; exact hlt, hlt1⟩
    · rw [if_pos (by rw [Bool.eq_false_iff.mpr hip]; simp)] at h
      exact Option.noConfusion (Option.some.inj h)
  | null => exact Option.noConfusion (Option.some.inj h)
  | b v => exact Option.noConfusion (Option.some.inj h)
  | i n => exact Option.noConfusion (Option.some.inj h)
  | q x => exact Option.noConfusion (Option.some.inj h)
  | s v => exact Option.noConfusion (Option.some.inj h)
  | arr a => exact Option.noConfusion (Option.some.inj h)

theorem validateCamsLoop_valid {m : List (PV × PV)} :
    ∀ {cams out : List PV}, validateCamsLoop m cams = some out →
    ∀ cam ∈ out, ValidCam cam := by
  intro cams
  induction cams with
  | nil =>
    intro out h cam hc
    rw [validateCamsLoop] at h
    simp only [Option.some.injEq] at h
    subst h
    simp at hc
  | cons c rest ih =>
    intro out h cam hc
    rw [validateCamsLoop] at h
    cases hone : validateOneCam m c with
    | none => rw [hone] at h; exact Option.noConfusion h
    | some o =>
      rw [hone] at h
      cases o with
      | none => exact ih h cam hc
      | some li =>
        dsimp only at h
        rcases Option.map_eq_some'.mp h with ⟨vs, hvs, hout⟩
        subst hout
        rcases List.mem_cons.mp hc with rfl | hmem
        · exact validateOneCam_valid hone
        · exact ih hvs cam hmem

theorem validate_cameras_dict (cd : List (String × PV)) :
    validate_cameras (.dict cd) =
      (match dlookup cd "camaras" with
        | some (.arr cams) =>
          match validateCamsLoop (buildIpTipoMap cams) cams with
          | none => none
          | some valid => some (.dict (dset cd "camaras" (.arr valid)))
        | _ => none) := rfl

/-- C9: every camera entry in the repaired `camaras` list is a dictionary
with a truthy `ip`, `confianza` and `umbral` in `[0, 1]`, integral
`intervalo` and `lost_ttl` of at least 1, and a list-valued `modelos`;
non-dictionary entries and entries without an `ip` are removed. -/
theorem validate_cameras_postcondition (cfg out : PV) (l : List (String × PV))
    (cams : List PV) (h : validate_cameras cfg = some out) (hout : out = .dict l)
    (hcams : dlookup l "camaras" = some (.arr cams)) :
    ∀ cam ∈ cams, ValidCam cam := by
  cases cfg with
  | dict cd =>
    rw [validate_cameras_dict] at h
    cases hdl : dlookup cd "camaras" with
    | none => rw [hdl] at h; exact Option.noConfusion h
    | some v =>
      rw [hdl] at h
      cases v with
      | arr cams0 =>
        dsimp only at h
        cases hloop : validateCamsLoop (buildIpTipoMap cams0) cams0 with
        | none => rw [hloop] at h; exact Option.noConfusion h
        | some valid =>
          rw [hloop] at h
          simp only [Option.some.injEq] at h
          subst hout
          injection h with h1
          rw [← h1, dlookup_dset_self] at hcams
          injection hcams with h2
          injection h2 with h3
          subst h3
          exact validateCamsLoop_valid hloop
      | null => exact Option.noConfusion h
      | b w => exact Option.noConfusion h
      | i n => exact Option.noConfusion h
      | q x => exact Option.noConfusion h
      | s w => exact Option.noConfusion h
      | dict d => exact Option.noConfusion h
  | null => exact Option.noConfusion h
  | b v => exact Option.noConfusion h
  | i n => exact Option.noConfusion h
  | q x => exact Option.noConfusion h
  | s v => exact Option.noConfusion h
  | arr a => exact Option.noConfusion h

/-- C9 witness: the postcondition instantiated on a minimal one-camera
configuration, with the validator run evaluated definitionally. -/
theorem validate_cameras_postcondition_witness :
    ValidCam (.dict exValidatedCam) :=
  validate_cameras_postcondition exConfig (.dict exValidatedTop) exValidatedTop
    [.dict exValidatedCam] (by rfl) rfl (by rfl) (.dict exValidatedCam)
    (List.mem_singleton_self _)

theorem lookupPrev_setPrev_self (m : PrevMap) (cls : Int) (v : List (Int × Int)) :
    lookupPrev (setPrev m cls v) cls = v := by
  induction m with
  | nil => simp [setPrev, lookupPrev]
  | cons p rest ih =>
    by_cases h : p.1 = cls
    · simp [setPrev, h, lookupPrev]
    · simp [setPrev, h, lookupPrev, ih]

theorem lookupPrev_setPrev_ne (m : PrevMap) (cls : Int) (v : List (Int × Int)) {c : Int}
    (h : cls ≠ c) : lookupPrev (setPrev m cls v) c = lookupPrev m c := by
  induction m with
  | nil => simp [setPrev, lookupPrev, h]
  | cons p rest ih =>
    by_cases hp : p.1 = cls
    · have hpc : p.1 ≠ c := by rw [hp]; exact h
      simp [setPrev, hp, lookupPrev, h, hpc]
    · by_cases hpc : p.1 = c
      · have hcc : ¬ c = cls := fun hh => h hh.symm
        simp [setPrev, hp, lookupPrev, hpc, hcc]
      · simp [setPrev, hp, lookupPrev, hpc, ih]

theorem lastTen_length_le (l : List (Int × Int)) : (lastTen l).length ≤ 10 := by
  simp only [lastTen, List.length_drop]
  omega

theorem procesarBox_prev_shape (u : Int) (prev : PrevMap) (b : DetBox) :
    ∃ v, (procesarBox u prev b).1 = setPrev prev b.cls (lastTen v) := by
  unfold procesarBox
  by_cases hm : seHaMovido u (lookupPrev prev b.cls)
      (Int.tdiv (b.x1 + b.x2) 2) (Int.tdiv (b.y1 + b.y2) 2)
  · rw [if_pos hm]
    exact ⟨_, rfl⟩
  · rw [if_neg hm]
    exact ⟨_, rfl⟩

theorem gate_hist_bound (u : Int) (boxes : List DetBox) :
    ∀ prev : PrevMap, (∀ c, (lookupPrev prev c).length ≤ 10) →
    ∀ c, (lookupPrev (actualizarBoxesGate u prev boxes).1 c).length ≤ 10 := by
  induction boxes with
  | nil => intro prev hb c; exact hb c
  | cons b bs ih =>
    intro prev hb c
    rw [actualizarBoxesGate]
    dsimp only
    refine ih (procesarBox u prev b).1 ?_ c
    intro c'
    obtain ⟨v, hv⟩ := procesarBox_prev_shape u prev b
    rw [hv]
    by_cases hc : b.cls = c'
    · rw [hc, lookupPrev_setPrev_self]
      exact lastTen_length_le v
    · rw [lookupPrev_setPrev_ne _ _ _ hc]
      exact hb c'

/-- C10: the movement gate of `actualizar_boxes` — `se_ha_movido` holds iff
the centroid moves by more than the threshold in x or in y relative to
every stored previous centroid of the class, so a class with no stored
history is always forwarded; the per-class history never exceeds the 10
most recent positions. -/
theorem first_detection_always_forwarded (u : Int) (prev : PrevMap) (b : DetBox) :
    (seHaMovido u (lookupPrev prev b.cls)
        (Int.tdiv (b.x1 + b.x2) 2) (Int.tdiv (b.y1 + b.y2) 2) = true ↔
      ∀ p ∈ lookupPrev prev b.cls,
        u < |Int.tdiv (b.x1 + b.x2) 2 - p.1| ∨ u < |Int.tdiv (b.y1 + b.y2) 2 - p.2|) ∧
    (lookupPrev prev b.cls = [] →
      (procesarBox u prev b).2 = some ⟨b.x1, b.y1, b.x2, b.y2, b.cls,
        Int.tdiv (b.x1 + b.x2) 2, Int.tdiv (b.y1 + b.y2) 2, b.tid, b.conf⟩) ∧
    (∀ boxes, (∀ c, (lookupPrev prev c).length ≤ 10) →
      ∀ c, (lookupPrev (actualizarBoxesGate u prev boxes).1 c).length ≤ 10) := by
  refine ⟨?_, ?_, fun boxes hb c => gate_hist_bound u boxes prev hb c⟩
  · simp [seHaMovido, List.all_eq_true, decide_eq_true_eq]
  · intro hempty
    unfold procesarBox
    rw [if_pos (by rw [hempty]; rfl)]

/-- C10 witness: a first detection of class 0 with empty history is
forwarded, and the history bound holds after processing it. -/
theorem first_detection_always_forwarded_witness :
    (procesarBox 20 [] ⟨0, 0, 10, 10, 0, some 1, 1⟩).2 =
      some ⟨0, 0, 10, 10, 0, 5, 5, some 1, 1⟩ ∧
    (lookupPrev (actualizarBoxesGate 20 [] [⟨0, 0, 10, 10, 0, some 1, 1⟩]).1 0).length ≤ 10 :=
  ⟨by
    have h := (first_detection_always_forwarded 20 [] ⟨0, 0, 10, 10, 0, some 1, 1⟩).2.1
      (by rfl)
    simpa using h,
   (first_detection_always_forwarded 20 [] ⟨0, 0, 10, 10, 0, some 1, 1⟩).2.2
      [⟨0, 0, 10, 10, 0, some 1, 1⟩] (fun c => by simp [lookupPrev]) 0⟩
